import Mathlib

/-!
# Verification of the Psy2 turn-processing pipeline

A shallow embedding, in Lean 4, of the core turn pipeline of the Psy2
therapy-patient simulator: the normalizer (`app/orchestrator/nodes/normalize.py`),
the guard (`app/orchestrator/nodes/guard.py`), the retriever
(`app/orchestrator/nodes/retrieve.py`), the LLM payload validator
(`app/llm/validate.py`), the tolerant JSON extraction
(`app/llm/json_parse.py`), the LLM reasoner (`app/orchestrator/nodes/reason_llm.py`),
the stub reasoner (`app/orchestrator/nodes/reason.py`), and the pipeline
orchestrator with trajectory tracking (`app/orchestrator/pipeline.py`).

Python dictionaries are modelled as association lists of `String × PyV`
(insertion ordered, as Python dicts are); Python floats as exact rationals
together with explicit NaN and infinity markers; database rows as Lean
structures; external collaborators (database session, LLM client, random
source, the stdlib `json` module where it is not itself under scrutiny)
as explicit parameters.  Raised exceptions are modelled with `Except`.
-/

namespace Psy2

/-! ## Characters and strings

All string manipulation is done on `List Char` (Python strings are sequences
of code points, and `len`/slicing count code points, as `List Char` does). -/

/-- `needle.isPrefixOf hay` on code-point lists. -/
def seqIsPrefix : List Char → List Char → Bool
  | [], _ => true
  | _ :: _, [] => false
  | a :: as, b :: bs => a == b && seqIsPrefix as bs

/-- Model of Python `needle in hay` (substring containment) on code-point lists. -/
def seqContains (needle : List Char) : List Char → Bool
  | [] => seqIsPrefix needle []
  | c :: cs => seqIsPrefix needle (c :: cs) || seqContains needle cs

/-- Model of Python `needle in hay` for strings. -/
def containsSub (hay needle : String) : Bool :=
  seqContains needle.toList hay.toList

/-- Model of Python `str.lower()`.  (Lean's `Char.toLower` only maps ASCII
letters while Python's case table also covers Cyrillic; every theorem below
compares keyword and utterance through the same `pyLower`, so the exact case
table never matters, and all concrete inputs are already lower case.) -/
def pyLower (s : String) : String :=
  String.mk (s.toList.map Char.toLower)

/-- Python's notion of whitespace for `str.strip()` / `\s` in regexes. -/
def isPyWs (c : Char) : Bool :=
  c == ' ' || c == '\t' || c == '\n' || c == '\r' || c == '\x0b' || c == '\x0c'

/-- Model of Python `str.strip()` (no arguments: strip whitespace). -/
def pyStrip (s : String) : String :=
  String.mk (((s.toList.dropWhile isPyWs).reverse.dropWhile isPyWs).reverse)

/-- First `n` code points of a string, Python `s[:n]`. -/
def pyTake (s : String) (n : Nat) : String :=
  String.mk (s.toList.take n)

/-! ## Python values

`PyV` models the Python values that flow through the pipeline dictionaries.
A float is a finite rational or an explicit NaN / ±Infinity marker (the
pipeline's arithmetic is only comparison and clamping, for which exact
rationals are a faithful idealization of IEEE doubles).  A string value
carries, next to its characters, the outcome of CPython `float()` on it
(`none` when `float()` raises `ValueError`); we record that outcome as data
rather than re-implement the CPython numeric-string parser, and every
concrete witness instantiates it consistently. -/

inductive FloatVal where
  | finite (q : ℚ)
  | nan
  | inf
  | ninf
deriving DecidableEq, Repr

inductive PyV where
  | vNone
  | vBool (b : Bool)
  | vInt (n : ℤ)
  | vFloat (v : FloatVal)
  | vStr (s : String) (conv : Option FloatVal)
  | vList (xs : List PyV)
  | vDict (m : List (String × PyV))

/-- A Python dict: insertion-ordered association list with unique keys. -/
abbrev PyDict := List (String × PyV)

/-- `k in d` for a Python dict. -/
def hasKey : PyDict → String → Bool
  | [], _ => false
  | (k', _) :: rest, k => k' == k || hasKey rest k

/-- `d.get(k)` (`None`-free variant: `none` when the key is absent). -/
def getKey? : PyDict → String → Option PyV
  | [], _ => none
  | (k', v) :: rest, k => if k' == k then some v else getKey? rest k

/-- `d.get(k, default)`. -/
def getD (m : PyDict) (k : String) (dflt : PyV) : PyV :=
  (getKey? m k).getD dflt

/-- `d[k] = v`: replace the value in place when the key exists (Python keeps
the original insertion position), append otherwise. -/
def setKey : PyDict → String → PyV → PyDict
  | [], k, v => [(k, v)]
  | (k', v') :: rest, k, v =>
      if k' == k then (k, v) :: rest else (k', v') :: setKey rest k v

/-- Python truthiness of a value. -/
def pyTruthy : PyV → Bool
  | .vNone => false
  | .vBool b => b
  | .vInt n => n != 0
  | .vFloat v => match v with
    | .finite q => q != 0
    | _ => true
  | .vStr s _ => s != ""
  | .vList xs => !xs.isEmpty
  | .vDict m => !m.isEmpty

/-- Model of Python `float(x)` on a value: `none` models a raised
`ValueError`/`TypeError`.  `bool` converts to 0.0/1.0, `int` exactly,
strings according to the recorded `float()` outcome, everything else raises. -/
def pyFloat : PyV → Option FloatVal
  | .vBool b => some (.finite (if b then 1 else 0))
  | .vInt n => some (.finite (n : ℚ))
  | .vFloat v => some v
  | .vStr _ conv => conv
  | _ => none

/-! ### Association-list lemmas -/

theorem getKey?_setKey_same (m : PyDict) (k : String) (v : PyV) :
    getKey? (setKey m k v) k = some v := by
  induction m with
  | nil => simp [setKey, getKey?]
  | cons kv rest ih =>
      obtain ⟨k', v'⟩ := kv
      by_cases h : k' = k
      · simp [setKey, h, getKey?]
      · simpa [setKey, h, getKey?] using ih

theorem getKey?_setKey_other (m : PyDict) (k k' : String) (v : PyV)
    (hne : k' ≠ k) : getKey? (setKey m k v) k' = getKey? m k' := by
  induction m with
  | nil => simp [setKey, getKey?, Ne.symm hne]
  | cons kv rest ih =>
      obtain ⟨k0, v0⟩ := kv
      by_cases h : k0 = k
      · subst h
        simp [setKey, getKey?, Ne.symm hne]
      · by_cases h' : k0 = k'
        · subst h'
          simp [setKey, h, getKey?, Ne.symm hne]
        · simpa [setKey, h, getKey?, h'] using ih

theorem hasKey_setKey (m : PyDict) (k : String) (v : PyV) :
    hasKey (setKey m k v) k = true := by
  induction m with
  | nil => simp [setKey, hasKey]
  | cons kv rest ih =>
      obtain ⟨k0, v0⟩ := kv
      by_cases h : k0 = k
      · simp [setKey, h, hasKey]
      · simpa [setKey, h, hasKey] using ih

/-! ## Normalizer — `app/orchestrator/nodes/normalize.py`

`normalize` classifies a therapist utterance into intent, topics, risk flags
and a truncated summary. -/

structure NormalizeResult where
  intent : String
  topics : List String
  risk_flags : List String
  last_turn_summary : String
deriving DecidableEq, Repr

/-- The default risk keywords of `_extract_intent` (used when the policy
supplies no trigger keywords). -/
def defaultIntentRiskKeywords : List String :=
  ["суицид", "убить себя", "не хочу жить", "покончить с жизнью"]

/-- The default suicide keywords of `_extract_risk_flags`. -/
def defaultSuicideKeywords : List String :=
  ["суицид", "убить себя", "не хочу жить", "покончить с жизнью",
   "повеситься", "отравиться"]

def clarifyKeywords : List String :=
  ["как", "что", "когда", "где", "почему", "какой"]

def rapportKeywords : List String :=
  ["понимаю", "сочувствую", "поддерживаю"]

/-- Topic keyword map of `_extract_topics` (dict, insertion ordered). -/
def topicKeywords : List (String × List String) :=
  [("sleep", ["спать", "спите", "сон", "бессонница", "засыпа"]),
   ("mood", ["настроение", "депрессия", "грусть", "радость", "тревога"]),
   ("alcohol", ["алкоголь", "пить", "выпивка", "водка", "пиво"]),
   ("work", ["работа", "работой", "карьера", "коллеги", "босс"]),
   ("family", ["семья", "семьей", "родители", "дети", "жена", "муж"])]

/-- Trigger keywords extracted from the policies dict:
`policies["risk_protocol"].get("trigger_keywords", [])` when `policies` is
truthy and has a `risk_protocol` key, else `[]`.  Keywords are taken as
strings (a non-string entry would raise at `.lower()` in Python; not
modelled, no claim involves one). -/
def policyTriggerKeywords (policies : PyV) : List String :=
  if pyTruthy policies then
    match policies with
    | .vDict m =>
        if hasKey m "risk_protocol" then
          match getKey? m "risk_protocol" with
          | some (.vDict rp) =>
              match getKey? rp "trigger_keywords" with
              | some (.vList ks) =>
                  ks.filterMap (fun v => match v with
                    | .vStr s _ => some s
                    | _ => none)
              | _ => []
          | _ => []
        else []
    | _ => []
  else []

/-- `_extract_intent`: risk keywords (policy list when non-empty, else the
built-in default), then clarify words, then rapport words, else
`open_question`. -/
def extractIntent (utteranceLower : String) (triggerKeywords : List String) :
    String :=
  let riskKeywords :=
    if triggerKeywords.isEmpty then defaultIntentRiskKeywords
    else triggerKeywords
  if riskKeywords.any (fun k => containsSub utteranceLower (pyLower k)) then
    "risk_check"
  else if clarifyKeywords.any (fun k => containsSub utteranceLower k) then
    "clarify"
  else if rapportKeywords.any (fun k => containsSub utteranceLower k) then
    "rapport"
  else
    "open_question"

/-- `_extract_topics`: keyword-to-topic dictionary lookup. -/
def extractTopics (utteranceLower : String) : List String :=
  topicKeywords.filterMap (fun tk =>
    if tk.2.any (fun k => containsSub utteranceLower k) then some tk.1
    else none)

/-- `_extract_risk_flags`: `["suicide_ideation"]` when a suicide keyword
(policy list when non-empty, else the built-in default) matches. -/
def extractRiskFlags (utteranceLower : String) (triggerKeywords : List String) :
    List String :=
  let suicideKeywords :=
    if triggerKeywords.isEmpty then defaultSuicideKeywords
    else triggerKeywords
  if suicideKeywords.any (fun k => containsSub utteranceLower (pyLower k)) then
    ["suicide_ideation"]
  else
    []

/-- `_create_summary`: the utterance verbatim when at most 200 code points,
else the first 200 code points followed by `"..."`. -/
def createSummary (utterance : String) : String :=
  if utterance.toList.length ≤ 200 then utterance
  else pyTake utterance 200 ++ "..."

/-- `normalize(therapist_utterance, session_state_compact, policies)`.
The session state is accepted and ignored, as in the source. -/
def normalize (therapist_utterance : String) (_session_state : PyV)
    (policies : PyV) : NormalizeResult :=
  let ul := pyLower therapist_utterance
  let tk := policyTriggerKeywords policies
  { intent := extractIntent ul tk
    topics := extractTopics ul
    risk_flags := extractRiskFlags ul tk
    last_turn_summary := createSummary therapist_utterance }

/-! ## Guard — `app/orchestrator/nodes/guard.py` -/

/-- The fixed risk-protocol safety message installed by the guard. -/
def riskSafetyMessage : String := "[Риск-триггер: обращение к протоколу]"

structure GuardResult where
  safe_output : PyV
  risk_status : String

/-- `guard(reason_output, policies, risk_flags)`.  Works on a deep copy of
`reason_output` (value semantics here); a falsy `reason_output` is replaced by
`{}`.  With risk flags present it overwrites `content_plan`, ensures
`style_directives` exists and forces its `tempo` to `"calm"`.  The `.error`
branches model the `TypeError` Python raises when item assignment hits a
non-dict. -/
def guard (reason_output : PyV) (_policies : PyV) (risk_flags : List String) :
    Except String GuardResult :=
  let safe_output := if pyTruthy reason_output then reason_output else .vDict []
  if risk_flags.isEmpty then
    .ok { safe_output := safe_output, risk_status := "none" }
  else
    match safe_output with
    | .vDict m =>
        let m1 := setKey m "content_plan"
          (.vList [.vStr riskSafetyMessage none])
        let m2 :=
          if hasKey m1 "style_directives" then m1
          else setKey m1 "style_directives" (.vDict [])
        match getKey? m2 "style_directives" with
        | some (.vDict sd) =>
            .ok { safe_output := .vDict (setKey m2 "style_directives"
                    (.vDict (setKey sd "tempo" (.vStr "calm" none))))
                  risk_status := "acute" }
        | _ => .error "TypeError"
    | _ => .error "TypeError"

theorem hasKey_eq_isSome (m : PyDict) (k : String) :
    hasKey m k = (getKey? m k).isSome := by
  induction m with
  | nil => simp [hasKey, getKey?]
  | cons kv rest ih =>
      obtain ⟨k0, v0⟩ := kv
      by_cases h : k0 = k
      · simp [hasKey, getKey?, h]
      · have hb : (k0 == k) = false := beq_eq_false_iff_ne.mpr h
        simp [hasKey, getKey?, hb, ih]

/-- C1.  With non-empty `risk_flags`, `guard` returns `risk_status = "acute"`,
replaces `content_plan` by the single fixed safety literal, forces
`style_directives.tempo = "calm"` while keeping every other style field, and
leaves every other top-level field of the reasoner output unchanged; with
empty `risk_flags` it returns `risk_status = "none"` and the reasoner output
passes through unchanged.  The source works on a `copy.deepcopy` of the
caller's dict, which the value semantics of this embedding renders exactly:
the input dict `m` itself is never altered. -/
theorem guard_risk_override (m : PyDict) (policies : PyV) :
    (∀ risk_flags : List String, risk_flags ≠ [] →
      ∀ sdOpt : PyDict,
        (getKey? m "style_directives" = none ∧ sdOpt = [] ∨
         getKey? m "style_directives" = some (.vDict sdOpt)) →
        ∃ m', guard (.vDict m) policies risk_flags =
            .ok { safe_output := .vDict m', risk_status := "acute" } ∧
          getKey? m' "content_plan" =
            some (.vList [.vStr riskSafetyMessage none]) ∧
          (∃ sd', getKey? m' "style_directives" = some (.vDict sd') ∧
            getKey? sd' "tempo" = some (.vStr "calm" none) ∧
            ∀ k, k ≠ "tempo" → getKey? sd' k = getKey? sdOpt k) ∧
          ∀ k, k ≠ "content_plan" → k ≠ "style_directives" →
            getKey? m' k = getKey? m k) ∧
    guard (.vDict m) policies [] =
      .ok { safe_output := .vDict m, risk_status := "none" } := by
  have hsafe : (if pyTruthy (PyV.vDict m) then PyV.vDict m else PyV.vDict []) =
      PyV.vDict m := by
    cases m <;> simp [pyTruthy]
  constructor
  · intro risk_flags hrf sdOpt hsd
    have hne : risk_flags.isEmpty = false := by
      cases risk_flags with
      | nil => exact absurd rfl hrf
      | cons a l => rfl
    have hcp : ("content_plan" : String) ≠ "style_directives" := by decide
    rcases hsd with ⟨habsent, hnil⟩ | hpresent
    · -- style_directives absent: a fresh `{}` is installed first
      have h1 : getKey? (setKey m "content_plan"
          (.vList [.vStr riskSafetyMessage none])) "style_directives" = none := by
        rw [getKey?_setKey_other _ _ _ _ (by decide)]
        exact habsent
      refine ⟨setKey (setKey (setKey m "content_plan"
          (.vList [.vStr riskSafetyMessage none])) "style_directives"
          (.vDict [])) "style_directives"
          (.vDict (setKey [] "tempo" (.vStr "calm" none))), ?_, ?_, ?_, ?_⟩
      · simp only [guard, hsafe, hne, Bool.false_eq_true, if_false,
          hasKey_eq_isSome, h1, Option.isSome_none,
          getKey?_setKey_same]
      · rw [getKey?_setKey_other _ _ _ _ (by decide),
          getKey?_setKey_other _ _ _ _ (by decide),
          getKey?_setKey_same]
      · refine ⟨setKey [] "tempo" (.vStr "calm" none),
          getKey?_setKey_same _ _ _, by simp [setKey, getKey?], ?_⟩
        intro k hk
        subst hnil
        simp [setKey, getKey?, Ne.symm hk]
      · intro k hk1 hk2
        rw [getKey?_setKey_other _ _ _ _ hk2, getKey?_setKey_other _ _ _ _ hk2,
          getKey?_setKey_other _ _ _ _ hk1]
    · -- style_directives present as a dict
      have h1 : getKey? (setKey m "content_plan"
          (.vList [.vStr riskSafetyMessage none])) "style_directives" =
          some (.vDict sdOpt) := by
        rw [getKey?_setKey_other _ _ _ _ (by decide)]
        exact hpresent
      refine ⟨setKey (setKey m "content_plan"
          (.vList [.vStr riskSafetyMessage none])) "style_directives"
          (.vDict (setKey sdOpt "tempo" (.vStr "calm" none))), ?_, ?_, ?_, ?_⟩
      · simp only [guard, hsafe, hne, Bool.false_eq_true, if_false,
          hasKey_eq_isSome, h1, Option.isSome_some, if_true]
      · rw [getKey?_setKey_other _ _ _ _ (by decide), getKey?_setKey_same]
      · exact ⟨setKey sdOpt "tempo" (.vStr "calm" none),
          getKey?_setKey_same _ _ _, getKey?_setKey_same _ _ _,
          fun k hk => getKey?_setKey_other _ _ _ _ hk⟩
      · intro k hk1 hk2
        rw [getKey?_setKey_other _ _ _ _ hk2, getKey?_setKey_other _ _ _ _ hk1]
  · simp only [guard, hsafe, List.isEmpty_nil, if_true]

/-- Witness for C1 at a concrete reasoner output. -/
theorem guard_risk_override_witness :
    (["suicide_ideation"] ≠ ([] : List String)) ∧
    (getKey? [("content_plan", PyV.vList [PyV.vStr "T1" none]),
        ("style_directives", PyV.vDict [("tempo", PyV.vStr "medium" none),
          ("length", PyV.vStr "short" none)]),
        ("state_updates", PyV.vDict [])] "style_directives" =
      some (PyV.vDict [("tempo", PyV.vStr "medium" none),
        ("length", PyV.vStr "short" none)])) ∧
    (∃ m', guard (.vDict [("content_plan", PyV.vList [PyV.vStr "T1" none]),
        ("style_directives", PyV.vDict [("tempo", PyV.vStr "medium" none),
          ("length", PyV.vStr "short" none)]),
        ("state_updates", PyV.vDict [])]) (.vDict []) ["suicide_ideation"] =
          .ok { safe_output := .vDict m', risk_status := "acute" } ∧
      getKey? m' "content_plan" =
        some (.vList [.vStr riskSafetyMessage none]) ∧
      (∃ sd', getKey? m' "style_directives" = some (.vDict sd') ∧
        getKey? sd' "tempo" = some (.vStr "calm" none) ∧
        ∀ k, k ≠ "tempo" → getKey? sd' k =
          getKey? [("tempo", PyV.vStr "medium" none),
            ("length", PyV.vStr "short" none)] k) ∧
      ∀ k, k ≠ "content_plan" → k ≠ "style_directives" →
        getKey? m' k = getKey? [("content_plan", PyV.vList [PyV.vStr "T1" none]),
          ("style_directives", PyV.vDict [("tempo", PyV.vStr "medium" none),
            ("length", PyV.vStr "short" none)]),
          ("state_updates", PyV.vDict [])] k) :=
  ⟨by decide, rfl,
    (guard_risk_override _ (.vDict [])).1 ["suicide_ideation"] (by decide)
      [("tempo", PyV.vStr "medium" none), ("length", PyV.vStr "short" none)]
      (Or.inr rfl)⟩

/-- C4.  Any utterance containing (case-insensitively) a risk trigger keyword
— from the policy when it supplies a non-empty `trigger_keywords` list, from
the built-in default list otherwise — is normalized to intent `"risk_check"`
with `risk_flags = ["suicide_ideation"]`.  (When the policy list is empty,
`_extract_risk_flags` matches against a longer default list that contains
the four intent defaults, so the flag follows from the same keyword hit.) -/
theorem normalize_risk_keyword (u : String) (st policies : PyV) (k : String)
    (hk : k ∈ (if (policyTriggerKeywords policies).isEmpty then
      defaultIntentRiskKeywords else policyTriggerKeywords policies))
    (hc : containsSub (pyLower u) (pyLower k) = true) :
    (normalize u st policies).intent = "risk_check" ∧
    (normalize u st policies).risk_flags = ["suicide_ideation"] := by
  constructor
  · have hany : ((if (policyTriggerKeywords policies).isEmpty then
        defaultIntentRiskKeywords else policyTriggerKeywords policies).any
        (fun kw => containsSub (pyLower u) (pyLower kw))) = true :=
      List.any_eq_true.mpr ⟨k, hk, hc⟩
    simp only [normalize, extractIntent, hany, if_true]
  · have hk6 : k ∈ (if (policyTriggerKeywords policies).isEmpty then
        defaultSuicideKeywords else policyTriggerKeywords policies) := by
      by_cases he : (policyTriggerKeywords policies).isEmpty
      · simp only [he, if_true] at hk ⊢
        simp only [defaultIntentRiskKeywords, List.mem_cons,
          List.not_mem_nil, or_false] at hk
        rcases hk with h | h | h | h <;> subst h <;> decide
      · simpa [he] using hk
    have hany : ((if (policyTriggerKeywords policies).isEmpty then
        defaultSuicideKeywords else policyTriggerKeywords policies).any
        (fun kw => containsSub (pyLower u) (pyLower kw))) = true :=
      List.any_eq_true.mpr ⟨k, hk6, hc⟩
    simp only [normalize, extractRiskFlags, hany, if_true]

/-- Witness for C4 with the built-in default keyword list. -/
theorem normalize_risk_keyword_witness :
    ("не хочу жить" ∈ (if (policyTriggerKeywords (.vDict [])).isEmpty then
      defaultIntentRiskKeywords else policyTriggerKeywords (.vDict []))) ∧
    containsSub (pyLower "в последнее время не хочу жить")
      (pyLower "не хочу жить") = true ∧
    (normalize "в последнее время не хочу жить" (.vDict []) (.vDict [])).intent
      = "risk_check" ∧
    (normalize "в последнее время не хочу жить" (.vDict [])
      (.vDict [])).risk_flags = ["suicide_ideation"] :=
  ⟨by decide, by decide,
    normalize_risk_keyword "в последнее время не хочу жить" (.vDict [])
      (.vDict []) "не хочу жить" (by decide) (by decide)⟩

/-! ## Retriever — `app/orchestrator/nodes/retrieve.py`

A `KBFragment` row.  The JSONB metadata is modelled by its fields used in the
code: `topic` (`metadata->>'topic'`, `none` when absent), `tags`
(`metadata->'tags'`, `[]` when absent — only membership and emptiness are
consumed), and `disclosure` for `metadata->'disclosure_requirements'`:
`none` = key absent, `some none` = present without `trust_ge`,
`some (some q)` = present with `trust_ge = q`.  The random noise roll
(`random.random() < 0.2`) and `random.choice` are injected as parameters
`noiseRoll` / `noiseIdx`, and the pgvector cosine distance
`embedding <=> :query_vector` as a parameter `dist` (its numeric value never
matters to the claims, only the induced ordering). -/

structure Fragment where
  id : String
  ftype : String
  text : String
  caseId : String
  availability : String
  topic : Option String
  tags : List String
  disclosure : Option (Option ℚ)
  embedding : Option (List ℚ)
deriving DecidableEq, Repr

/-- The availability gate common to both retrieval strategies:
`availability = 'public'`, or `availability = 'gated'` and (no
`disclosure_requirements`, or no `trust_ge` in them, or `trust_ge ≤ trust`). -/
def availabilityOk (f : Fragment) (trust : ℚ) : Bool :=
  f.availability == "public" ||
  (f.availability == "gated" &&
    (match f.disclosure with
     | none => true
     | some none => true
     | some (some q) => decide (q ≤ trust)))

/-- The topic restriction used by both strategies when `topics` is non-empty:
`metadata->>'topic' IN topics` (SQL three-valued logic drops rows whose topic
is NULL). -/
def topicOk (topics : List String) (f : Fragment) : Bool :=
  topics.isEmpty ||
  (match f.topic with
   | some t => topics.contains t
   | none => false)

/-- The base query of `_metadata_retrieve`: fragments of the case passing the
availability gate, restricted to the requested topics when any. -/
def metadataBase (db : List Fragment) (case_id : String) (topics : List String)
    (trust : ℚ) : List Fragment :=
  db.filter (fun f => f.caseId == case_id && availabilityOk f trust &&
    topicOk topics f)

/-- The candidate pool of `_get_random_public_fragment`: public fragments of
the case whose topic differs from every excluded topic (a NULL topic fails
the SQL `!=` comparison, so such fragments qualify only when there is no
exclusion). -/
def noiseCandidates (db : List Fragment) (case_id : String)
    (excludedTopics : List String) : List Fragment :=
  db.filter (fun f => f.caseId == case_id && f.availability == "public" &&
    (excludedTopics.isEmpty ||
     (match f.topic with
      | some t => !(excludedTopics.contains t)
      | none => false)))

/-- `_get_random_public_fragment` with `random.choice` injected as an index. -/
def randomPublicFragment (db : List Fragment) (case_id : String)
    (excludedTopics : List String) (noiseIdx : ℕ) : Option Fragment :=
  let cands := noiseCandidates db case_id excludedTopics
  cands[noiseIdx % cands.length]?

/-- The noise-injection tail of `_metadata_retrieve`: with probability 20%
(parameter `noiseRoll`) and a non-empty base result, one random public
off-topic fragment is appended while staying under `top_k`. -/
def noiseStep (db : List Fragment) (case_id : String) (topics : List String)
    (noiseRoll : Bool) (noiseIdx : ℕ) (top_k : ℕ)
    (retrieved : List Fragment) : List Fragment :=
  if noiseRoll && !retrieved.isEmpty then
    match randomPublicFragment db case_id topics noiseIdx with
    | some nf =>
        if retrieved.length < top_k then retrieved ++ [nf] else retrieved
    | none => retrieved
  else retrieved

/-- `_metadata_retrieve`: base query limited to `top_k`, the noise step, and
a final `[:top_k]` cut. -/
def metadataRetrieve (db : List Fragment) (case_id : String)
    (topics : List String) (trust : ℚ) (top_k : ℕ) (noiseRoll : Bool)
    (noiseIdx : ℕ) : List Fragment :=
  (noiseStep db case_id topics noiseRoll noiseIdx top_k
    ((metadataBase db case_id topics trust).take top_k)).take top_k

/-- The WHERE clause of `_vector_retrieve`: case, availability gate, non-null
embedding, and — when `topics` is non-empty — the topic restriction
(`AND metadata->>'topic' = ANY(:topics)`). -/
def vectorEligible (db : List Fragment) (case_id : String)
    (topics : List String) (trust : ℚ) : List Fragment :=
  db.filter (fun f => f.caseId == case_id && availabilityOk f trust &&
    f.embedding.isSome && topicOk topics f)

/-- `_vector_retrieve`: on embedding failure (`embedOk = false`) or SQL
failure (`queryOk = false`) fall back to the metadata strategy, else order
the eligible fragments by cosine distance (`ORDER BY distance LIMIT top_k`).
No noise injection in vector mode. -/
def vectorRetrieve (db : List Fragment) (case_id : String)
    (topics : List String) (trust : ℚ) (top_k : ℕ) (dist : Fragment → ℚ)
    (embedOk queryOk noiseRoll : Bool) (noiseIdx : ℕ) : List Fragment :=
  if !embedOk then
    metadataRetrieve db case_id topics trust top_k noiseRoll noiseIdx
  else if !queryOk then
    metadataRetrieve db case_id topics trust top_k noiseRoll noiseIdx
  else
    (List.insertionSort (fun a b => dist a ≤ dist b)
      (vectorEligible db case_id topics trust)).take top_k

/-- `retrieve`: empty result for an unknown case, then the strategy selected
by `settings.RAG_USE_VECTOR`. -/
def retrieveModel (db : List Fragment) (caseExists useVector : Bool)
    (case_id : String) (topics : List String) (trust : ℚ) (top_k : ℕ)
    (dist : Fragment → ℚ) (embedOk queryOk noiseRoll : Bool) (noiseIdx : ℕ) :
    List Fragment :=
  if !caseExists then []
  else if useVector then
    vectorRetrieve db case_id topics trust top_k dist embedOk queryOk
      noiseRoll noiseIdx
  else
    metadataRetrieve db case_id topics trust top_k noiseRoll noiseIdx

theorem availabilityOk_spec {f : Fragment} {trust : ℚ}
    (h : availabilityOk f trust = true) :
    f.availability ≠ "hidden" ∧
    ∀ q, f.availability = "gated" → f.disclosure = some (some q) →
      q ≤ trust := by
  simp only [availabilityOk, Bool.or_eq_true, Bool.and_eq_true,
    beq_iff_eq] at h
  rcases h with h | ⟨hg, hcond⟩
  · refine ⟨by rw [h]; decide, fun q hq _ => ?_⟩
    rw [h] at hq
    exact absurd hq (by decide)
  · refine ⟨by rw [hg]; decide, fun q _ hd => ?_⟩
    rw [hd] at hcond
    exact of_decide_eq_true hcond

theorem mem_noiseCandidates_public {db : List Fragment} {case_id : String}
    {excludedTopics : List String} {f : Fragment}
    (h : f ∈ noiseCandidates db case_id excludedTopics) :
    f.availability = "public" := by
  have := (List.mem_filter.mp h).2
  simp only [Bool.and_eq_true, beq_iff_eq] at this
  exact this.1.2

theorem mem_noiseStep_cases {db : List Fragment} {case_id : String}
    {topics : List String} {noiseRoll : Bool} {noiseIdx top_k : ℕ}
    {retrieved : List Fragment} {f : Fragment}
    (h : f ∈ noiseStep db case_id topics noiseRoll noiseIdx top_k retrieved) :
    f ∈ retrieved ∨ f ∈ noiseCandidates db case_id topics := by
  unfold noiseStep at h
  split at h
  · rcases hr : randomPublicFragment db case_id topics noiseIdx with _ | nf
    · rw [hr] at h
      exact Or.inl h
    · rw [hr] at h
      dsimp only at h
      split at h
      · rcases List.mem_append.mp h with h2 | h2
        · exact Or.inl h2
        · right
          have hf : f = nf := by simpa using h2
          subst hf
          unfold randomPublicFragment at hr
          exact List.getElem?_mem hr
      · exact Or.inl h
  · exact Or.inl h

theorem mem_metadataRetrieve_cases {db : List Fragment} {case_id : String}
    {topics : List String} {trust : ℚ} {top_k : ℕ} {noiseRoll : Bool}
    {noiseIdx : ℕ} {f : Fragment}
    (h : f ∈ metadataRetrieve db case_id topics trust top_k noiseRoll
      noiseIdx) :
    f ∈ metadataBase db case_id topics trust ∨
    f ∈ noiseCandidates db case_id topics := by
  unfold metadataRetrieve at h
  rcases mem_noiseStep_cases (List.mem_of_mem_take h) with h1 | h1
  · exact Or.inl (List.mem_of_mem_take h1)
  · exact Or.inr h1

/-- C2.  Under either retrieval strategy (including the noise-injection path,
the vector strategy and its fallbacks), for every trust value and every
random outcome, no `hidden` fragment is ever returned, and a `gated`
fragment carrying a `trust_ge` disclosure requirement is returned only when
the session trust is at least that threshold. -/
theorem retrieve_availability_gating (db : List Fragment)
    (caseExists useVector : Bool) (case_id : String) (topics : List String)
    (trust : ℚ) (top_k : ℕ) (dist : Fragment → ℚ)
    (embedOk queryOk noiseRoll : Bool) (noiseIdx : ℕ) (f : Fragment)
    (hf : f ∈ retrieveModel db caseExists useVector case_id topics trust
      top_k dist embedOk queryOk noiseRoll noiseIdx) :
    f.availability ≠ "hidden" ∧
    ∀ q, f.availability = "gated" → f.disclosure = some (some q) →
      q ≤ trust := by
  have hmeta : ∀ (roll : Bool) (idx : ℕ),
      f ∈ metadataRetrieve db case_id topics trust top_k roll idx →
      f.availability ≠ "hidden" ∧
      ∀ q, f.availability = "gated" → f.disclosure = some (some q) →
        q ≤ trust := by
    intro roll idx hm
    rcases mem_metadataRetrieve_cases hm with hb | hn
    · have := (List.mem_filter.mp hb).2
      simp only [Bool.and_eq_true] at this
      exact availabilityOk_spec this.1.2
    · have hp := mem_noiseCandidates_public hn
      refine ⟨by rw [hp]; decide, fun q hq _ => ?_⟩
      rw [hp] at hq
      exact absurd hq (by decide)
  unfold retrieveModel at hf
  split at hf
  · exact absurd hf (List.not_mem_nil f)
  · split at hf
    · unfold vectorRetrieve at hf
      split at hf
      · exact hmeta _ _ hf
      · split at hf
        · exact hmeta _ _ hf
        · have h1 := List.mem_of_mem_take hf
          have h2 : f ∈ vectorEligible db case_id topics trust :=
            (List.perm_insertionSort _ _).mem_iff.mp h1
          have := (List.mem_filter.mp h2).2
          simp only [Bool.and_eq_true] at this
          exact availabilityOk_spec this.1.1.2
    · exact hmeta _ _ hf

/-- A public sleep-topic fragment used in witnesses. -/
def sleepFrag : Fragment :=
  { id := "f-sleep", ftype := "bio", text := "Сплю плохо", caseId := "c1",
    availability := "public", topic := some "sleep", tags := ["sleep"],
    disclosure := none, embedding := none }

/-- A gated fragment with `trust_ge = 0.3` used in witnesses. -/
def gatedFrag : Fragment :=
  { id := "f-gated", ftype := "fact", text := "Скрытый эпизод",
    caseId := "c1", availability := "gated", topic := some "sleep",
    tags := ["sleep"], disclosure := some (some (mkRat 3 10)),
    embedding := none }

/-- Witness for C2: with trust 0.5 the gated fragment (threshold 0.3) is
returned by the metadata strategy and satisfies the gating conclusion. -/
theorem retrieve_availability_gating_witness :
    gatedFrag ∈ retrieveModel [sleepFrag, gatedFrag] true false "c1"
      ["sleep"] (mkRat 1 2) 3 (fun _ => 0) true true false 0 ∧
    (gatedFrag.availability ≠ "hidden" ∧
      ∀ q, gatedFrag.availability = "gated" →
        gatedFrag.disclosure = some (some q) → q ≤ mkRat 1 2) :=
  ⟨by decide,
    retrieve_availability_gating [sleepFrag, gatedFrag] true false "c1"
      ["sleep"] (mkRat 1 2) 3 (fun _ => 0) true true false 0 gatedFrag
      (by decide)⟩

/-- A public mood-topic fragment with a non-null embedding. -/
def moodEmbFrag : Fragment :=
  { id := "f-mood", ftype := "bio", text := "Настроение снижено",
    caseId := "c1", availability := "public", topic := some "mood",
    tags := ["mood"], disclosure := none, embedding := some [1, 0] }

/-- C3 counterexample.  In vector mode with requested topics `["sleep"]`, the
sole fragment of the case — public, embedded, nearest under any distance — is
not returned, because `_vector_retrieve` appends
`AND metadata->>'topic' = ANY(:topics)` to its SQL when topics are non-empty.
The claim asserts no hard topic filter is applied in vector mode. -/
theorem vector_retrieve_topic_hard_filter_counterexample :
    vectorRetrieve [moodEmbFrag] "c1" ["sleep"] 0 3 (fun _ => 0)
      true true false 0 = [] ∧
    moodEmbFrag.caseId = "c1" ∧ availabilityOk moodEmbFrag 0 = true ∧
    moodEmbFrag.embedding.isSome = true ∧ moodEmbFrag.topic = some "mood" ∧
    "mood" ∉ ["sleep"] := by
  refine ⟨rfl, rfl, rfl, rfl, rfl, by decide⟩

/-- C3 amended.  In vector mode proper (embedding and query both succeed),
`_vector_retrieve` returns the `top_k` nearest fragments by cosine distance
among the case's fragments with non-null embeddings that pass availability
gating AND — when the requested topics list is non-empty — whose metadata
topic is in that list (a hard topic filter, exactly as in metadata mode):
every returned fragment is so qualified, at most `top_k` are returned in
non-decreasing distance order, and any qualified fragment left out is at
least as distant as every returned one. -/
theorem vector_retrieve_gating_and_nearest (db : List Fragment)
    (case_id : String) (topics : List String) (trust : ℚ) (top_k : ℕ)
    (dist : Fragment → ℚ) (noiseRoll : Bool) (noiseIdx : ℕ) :
    (∀ f ∈ vectorRetrieve db case_id topics trust top_k dist true true
        noiseRoll noiseIdx,
      f.caseId = case_id ∧ availabilityOk f trust = true ∧
      f.embedding.isSome = true ∧
      (topics ≠ [] → ∃ t, f.topic = some t ∧ t ∈ topics)) ∧
    (vectorRetrieve db case_id topics trust top_k dist true true noiseRoll
      noiseIdx).length ≤ top_k ∧
    (vectorRetrieve db case_id topics trust top_k dist true true noiseRoll
      noiseIdx).Sorted (fun a b => dist a ≤ dist b) ∧
    (∀ g ∈ db, g.caseId = case_id → availabilityOk g trust = true →
      g.embedding.isSome = true → topicOk topics g = true →
      g ∉ vectorRetrieve db case_id topics trust top_k dist true true
        noiseRoll noiseIdx →
      ∀ f ∈ vectorRetrieve db case_id topics trust top_k dist true true
        noiseRoll noiseIdx, dist f ≤ dist g) := by
  haveI : IsTotal Fragment (fun a b => dist a ≤ dist b) :=
    ⟨fun a b => le_total _ _⟩
  haveI : IsTrans Fragment (fun a b => dist a ≤ dist b) :=
    ⟨fun _ _ _ hab hbc => le_trans hab hbc⟩
  have hvr : vectorRetrieve db case_id topics trust top_k dist true true
      noiseRoll noiseIdx =
      (List.insertionSort (fun a b => dist a ≤ dist b)
        (vectorEligible db case_id topics trust)).take top_k := rfl
  refine ⟨?_, ?_, ?_, ?_⟩
  · intro f hf
    rw [hvr] at hf
    have h1 : f ∈ vectorEligible db case_id topics trust :=
      (List.mem_insertionSort _).mp (List.mem_of_mem_take hf)
    have h2 := (List.mem_filter.mp h1).2
    simp only [Bool.and_eq_true, beq_iff_eq] at h2
    refine ⟨h2.1.1.1, h2.1.1.2, h2.1.2, fun hne => ?_⟩
    have htop := h2.2
    unfold topicOk at htop
    have hie : topics.isEmpty = false := by
      cases topics with
      | nil => exact absurd rfl hne
      | cons a l => rfl
    rw [hie, Bool.false_or] at htop
    rcases ht : f.topic with _ | t
    · rw [ht] at htop
      exact Bool.noConfusion htop
    · rw [ht] at htop
      exact ⟨t, rfl, List.mem_of_elem_eq_true htop⟩
  · rw [hvr]
    simp [Nat.min_le_left top_k]
  · rw [hvr]
    exact List.Pairwise.sublist (List.take_sublist _ _)
      (List.sorted_insertionSort _ _)
  · intro g hg hcase hav hemb htop hgout f hf
    have hgel : g ∈ vectorEligible db case_id topics trust := by
      refine List.mem_filter.mpr ⟨hg, ?_⟩
      simp only [Bool.and_eq_true, beq_iff_eq]
      exact ⟨⟨⟨hcase, hav⟩, hemb⟩, htop⟩
    have hgsort : g ∈ List.insertionSort (fun a b => dist a ≤ dist b)
        (vectorEligible db case_id topics trust) :=
      (List.mem_insertionSort _).mpr hgel
    rw [hvr] at hgout hf
    have hgdrop : g ∈ (List.insertionSort (fun a b => dist a ≤ dist b)
        (vectorEligible db case_id topics trust)).drop top_k := by
      have hsplit : g ∈ (List.insertionSort (fun a b => dist a ≤ dist b)
          (vectorEligible db case_id topics trust)).take top_k ++
          (List.insertionSort (fun a b => dist a ≤ dist b)
            (vectorEligible db case_id topics trust)).drop top_k := by
        rw [List.take_append_drop]
        exact hgsort
      rcases List.mem_append.mp hsplit with h | h
      · exact absurd h hgout
      · exact h
    have hsorted : List.Sorted (fun a b => dist a ≤ dist b)
        (List.insertionSort (fun a b => dist a ≤ dist b)
          (vectorEligible db case_id topics trust)) :=
      List.sorted_insertionSort _ _
    exact hsorted.rel_of_mem_take_of_mem_drop hf hgdrop

/-- Witness for C3 (amended) at a concrete database where the vector result
is non-empty. -/
theorem vector_retrieve_gating_and_nearest_witness :
    moodEmbFrag ∈ vectorRetrieve [moodEmbFrag] "c1" ["mood"] 0 3 (fun _ => 0)
      true true false 0 ∧
    (moodEmbFrag.caseId = "c1" ∧ availabilityOk moodEmbFrag 0 = true ∧
      moodEmbFrag.embedding.isSome = true ∧
      ((["mood"] : List String) ≠ [] →
        ∃ t, moodEmbFrag.topic = some t ∧ t ∈ ["mood"])) :=
  ⟨by decide,
    (vector_retrieve_gating_and_nearest [moodEmbFrag] "c1" ["mood"] 0 3
      (fun _ => 0) false 0).1 moodEmbFrag (by decide)⟩

/-! ## Validator — `app/llm/validate.py`

`validate_reason_payload` and its four normalizers.  Warning messages that
interpolate runtime values in the source are modelled by fixed strings (no
claim depends on the rendered text, only on which warning fires).  `vStr`
values synthesized at runtime carry `conv := none`; no modelled code path
applies `float()` to them.  The `.error "TypeError"` branches model the two
places where the source can actually raise despite its docstring: item
assignment on a non-dict `telemetry`, and the `tempo not in {...}` /
`length not in {...}` membership tests, which call `hash()` on the value and
raise `TypeError` for unhashable values (lists, dicts). -/

/-- Python `x in someSet` hashes `x` first: unhashable values raise. -/
def hashableCheck : PyV → Except String PyV
  | .vList _ => .error "TypeError"
  | .vDict _ => .error "TypeError"
  | v => .ok v

/-- The item loop of `_normalize_content_plan`: keep trimmed non-empty
strings, stop as soon as two are collected, warn on non-string items. -/
def planLoop : List PyV → List String → List String × List String
  | [], acc => (acc, [])
  | item :: rest, acc =>
      match item with
      | .vStr s _ =>
          let t := pyStrip s
          if t ≠ "" then
            if 2 ≤ (acc ++ [t]).length then (acc ++ [t], [])
            else planLoop rest (acc ++ [t])
          else planLoop rest acc
      | _ =>
          let rw := planLoop rest acc
          (rw.1, "content_plan item was not string" :: rw.2)

/-- Plan synthesis from the first two candidates' 200-char text snippets. -/
def planFromCandidates (cands : List PyV) : List String :=
  (cands.take 2).filterMap (fun c =>
    match c with
    | .vDict m =>
        match getKey? m "text" with
        | some (.vStr s _) =>
            if pyStrip s ≠ "" then
              if pyStrip (pyTake s 200) ≠ "" then some (pyStrip (pyTake s 200))
              else none
            else none
        | _ => none
    | _ => none)

/-- `if "telemetry" not in result: result["telemetry"] = {}` (appears both in
`_normalize_content_plan` and at the end of `validate_reason_payload`). -/
def ensureTelemetry (p : PyDict) : PyDict :=
  if hasKey p "telemetry" then p else setKey p "telemetry" (.vDict [])

/-- The `content_plan` input items: a list is kept, a bare string wrapped,
anything else becomes `[]` with a warning. -/
def contentPlanItems (p : PyDict) : List PyV × List String :=
  match getD p "content_plan" (.vList []) with
  | .vList xs => (xs, [])
  | .vStr s c => ([.vStr s c], [])
  | _ => ([], ["content_plan was not a list, converted to empty list"])

/-- `_normalize_content_plan`. -/
def normContentPlan (p : PyDict) (cands : List PyV) :
    Except String (PyDict × List String) :=
  if (planLoop (contentPlanItems p).1 []).1.isEmpty && !cands.isEmpty then
    if !(planFromCandidates cands).isEmpty then
      match getKey? (ensureTelemetry p) "telemetry" with
      | some (.vDict t) =>
          .ok (setKey (setKey (ensureTelemetry p) "telemetry"
                (.vDict (setKey t "llm_empty_plan" (.vBool true))))
                "content_plan"
                (.vList ((planFromCandidates cands).map
                  (fun s => .vStr s none))),
              (contentPlanItems p).2 ++ (planLoop (contentPlanItems p).1 []).2
                ++ ["content_plan was empty, generated from candidates"])
      | _ => .error "TypeError"
    else
      .ok (setKey p "content_plan" (.vList []),
        (contentPlanItems p).2 ++ (planLoop (contentPlanItems p).1 []).2)
  else
    .ok (setKey p "content_plan"
          (.vList ((planLoop (contentPlanItems p).1 []).1.map
            (fun s => .vStr s none))),
        (contentPlanItems p).2 ++ (planLoop (contentPlanItems p).1 []).2)

def tempoValid : PyV → Bool
  | .vStr s _ => s == "slow" || s == "medium" || s == "fast"
  | _ => false

def lengthValid : PyV → Bool
  | .vStr s _ => s == "short" || s == "medium" || s == "long"
  | _ => false

/-- The `style_directives` sub-dict the validator works on. -/
def styleDictOf (p : PyDict) : PyDict :=
  match getD p "style_directives" (.vDict []) with
  | .vDict m => m
  | _ => []

/-- The warning emitted when `style_directives` is present but not a dict. -/
def styleWarn (p : PyDict) : List String :=
  match getD p "style_directives" (.vDict []) with
  | .vDict _ => []
  | _ => ["style_directives was not a dict, reset to empty"]

def tempoFix (v : PyV) : PyV × List String :=
  if tempoValid v then (v, [])
  else (.vStr "medium" none, ["tempo invalid, set to 'medium'"])

def lengthFix (v : PyV) : PyV × List String :=
  if lengthValid v then (v, [])
  else (.vStr "short" none, ["length invalid, set to 'short'"])

/-- `_normalize_style_directives`. -/
def normStyle (p : PyDict) : Except String (PyDict × List String) :=
  match hashableCheck (getD (styleDictOf p) "tempo" (.vStr "medium" none)) with
  | .error e => .error e
  | .ok tempo =>
      match hashableCheck (getD (styleDictOf p) "length"
          (.vStr "short" none)) with
      | .error e => .error e
      | .ok lengthIn =>
          .ok (setKey p "style_directives"
                (.vDict [("tempo", (tempoFix tempo).1),
                         ("length", (lengthFix lengthIn).1)]),
              styleWarn p ++ (tempoFix tempo).2 ++ (lengthFix lengthIn).2)

/-- `max(-0.2, min(0.2, x))`. -/
def clampTrust (q : ℚ) : ℚ := max (mkRat (-1) 5) (min (mkRat 1 5) q)

/-- `max(0.0, min(0.2, x))`. -/
def clampFatigue (q : ℚ) : ℚ := max 0 (min (mkRat 1 5) q)

/-- The conversion step shared by both deltas: `float(x)` with
`ValueError`/`TypeError` → 0.0+warning, NaN/±Inf → 0.0+warning. -/
def deltaOfInput (v : PyV) (nonNumMsg nanMsg : String) : ℚ × List String :=
  match pyFloat v with
  | none => (0, [nonNumMsg])
  | some (.finite q) => (q, [])
  | some _ => (0, [nanMsg])

/-- The `state_updates` sub-dict the validator works on (`{}` when the key is
absent or its value is not a dict). -/
def suDict (p : PyDict) : PyDict :=
  match getD p "state_updates" (.vDict []) with
  | .vDict m => m
  | _ => []

/-- The warning emitted when `state_updates` is present but not a dict. -/
def suWarn (p : PyDict) : List String :=
  match getD p "state_updates" (.vDict []) with
  | .vDict _ => []
  | _ => ["state_updates was not a dict, reset to empty"]

/-- `_normalize_state_updates` (never raises). -/
def normState (p : PyDict) : PyDict × List String :=
  let t1 := deltaOfInput (getD (suDict p) "trust_delta" (.vFloat (.finite 0)))
    "trust_delta was not numeric, set to 0.0" "trust_delta was NaN/inf, set to 0.0"
  let t2 := clampTrust t1.1
  let wt2 : List String := if t2 ≠ t1.1 then ["trust_delta clamped"] else []
  let f1 := deltaOfInput (getD (suDict p) "fatigue_delta" (.vFloat (.finite 0)))
    "fatigue_delta was not numeric, set to 0.0" "fatigue_delta was NaN/inf, set to 0.0"
  let f2 := clampFatigue f1.1
  let wf2 : List String := if f2 ≠ f1.1 then ["fatigue_delta clamped"] else []
  (setKey p "state_updates"
      (.vDict [("trust_delta", .vFloat (.finite t2)),
               ("fatigue_delta", .vFloat (.finite f2))]),
    suWarn p ++ t1.2 ++ wt2 ++ f1.2 ++ wf2)

/-- The `valid_ids` set of `_normalize_telemetry`, as a deduplicated list in
first-insertion order (Python set iteration order is not modelled; no claim
depends on it). -/
def validIds (cands : List PyV) : List String :=
  cands.foldl (fun acc c =>
    match c with
    | .vDict m =>
        match getKey? m "id" with
        | some (.vStr s _) => if acc.contains s then acc else acc ++ [s]
        | _ => acc
    | _ => acc) []

/-- The `chosen_ids` loop: keep strings present in `valid`, deduplicate
preserving order, warn on everything else. -/
def chosenLoop (valid : List String) : List PyV → List String →
    List String × List String
  | [], acc => (acc, [])
  | c :: rest, acc =>
      match c with
      | .vStr s _ =>
          if valid.contains s then
            if acc.contains s then chosenLoop valid rest acc
            else chosenLoop valid rest (acc ++ [s])
          else
            let rw := chosenLoop valid rest acc
            (rw.1, "chosen_id not in valid candidates, removed" :: rw.2)
      | _ =>
          let rw := chosenLoop valid rest acc
          (rw.1, "chosen_id not in valid candidates, removed" :: rw.2)

/-- `_normalize_telemetry` (never raises: the set-membership test is guarded
by `isinstance(chosen_id, str)`). -/
def normTelemetry (p : PyDict) (cands : List PyV) : PyDict × List String :=
  let telW : PyDict × List String :=
    match getD p "telemetry" (.vDict []) with
    | .vDict m => (m, [])
    | _ => ([], ["telemetry was not a dict, reset to empty"])
  let valid := validIds cands
  let chosenW : List PyV × List String :=
    match getD telW.1 "chosen_ids" (.vList []) with
    | .vList xs => (xs, [])
    | _ => ([], ["chosen_ids was not a list, reset to empty"])
  let idsW := chosenLoop valid chosenW.1 []
  let finalW : List String × List String :=
    if idsW.1.isEmpty && !valid.isEmpty then
      (valid, ["chosen_ids was empty, substituted candidate IDs"])
    else (idsW.1, [])
  (setKey p "telemetry"
      (.vDict (setKey telW.1 "chosen_ids"
        (.vList (finalW.1.map (fun s => .vStr s none))))),
    telW.2 ++ chosenW.2 ++ idsW.2 ++ finalW.2)

/-- `if not isinstance(payload, dict): payload = {}`. -/
def pyDictOf : PyV → PyDict
  | .vDict m => m
  | _ => []

/-- `if not isinstance(candidates, list): candidates = []`. -/
def pyListOf : PyV → List PyV
  | .vList xs => xs
  | _ => []

/-- The tail of `validate_reason_payload`: ensure a `telemetry` dict exists
and record the accumulated warnings in it when any. -/
def validateAssemble (p : PyDict) (warnings : List String) :
    Except String (PyDict × List String) :=
  if warnings.isEmpty then
    .ok (ensureTelemetry p, warnings)
  else
    match getKey? (ensureTelemetry p) "telemetry" with
    | some (.vDict t) =>
        .ok (setKey (ensureTelemetry p) "telemetry"
              (.vDict (setKey t "validation_warnings"
                (.vList (warnings.map (fun s => .vStr s none))))), warnings)
    | _ => .error "TypeError"

/-- `validate_reason_payload(payload, candidates)`: the four normalizers in
sequence, then the warning-recording tail. -/
def validateReasonPayload (payload : PyV) (candidates : PyV) :
    Except String (PyDict × List String) :=
  match normContentPlan (pyDictOf payload) (pyListOf candidates) with
  | .error e => .error e
  | .ok r1 =>
      match normStyle r1.1 with
      | .error e => .error e
      | .ok r2 =>
          validateAssemble
            (normTelemetry (normState r2.1).1 (pyListOf candidates)).1
            (r1.2 ++ r2.2 ++ (normState r2.1).2 ++
              (normTelemetry (normState r2.1).1 (pyListOf candidates)).2)

/-- The raw `trust_delta` value the validator reads from the payload. -/
def trustDeltaInput (p : PyDict) : PyV :=
  getD (suDict p) "trust_delta" (.vFloat (.finite 0))

/-- The raw `fatigue_delta` value the validator reads from the payload. -/
def fatigueDeltaInput (p : PyDict) : PyV :=
  getD (suDict p) "fatigue_delta" (.vFloat (.finite 0))

/-- A value `float()` maps to NaN, ±Infinity, or fails on. -/
def nonFiniteInput (v : PyV) : Prop :=
  pyFloat v = none ∨ pyFloat v = some .nan ∨ pyFloat v = some .inf ∨
    pyFloat v = some .ninf

theorem clampTrust_lb (q : ℚ) : mkRat (-1) 5 ≤ clampTrust q :=
  le_max_left _ _

theorem clampTrust_ub (q : ℚ) : clampTrust q ≤ mkRat 1 5 :=
  max_le (by decide) (min_le_left _ _)

theorem clampFatigue_lb (q : ℚ) : 0 ≤ clampFatigue q :=
  le_max_left _ _

theorem clampFatigue_ub (q : ℚ) : clampFatigue q ≤ mkRat 1 5 :=
  max_le (by decide) (min_le_left _ _)

theorem clampTrust_zero : clampTrust 0 = 0 := by
  rw [clampTrust, min_eq_right (by decide : (0:ℚ) ≤ mkRat 1 5),
    max_eq_right (by decide : mkRat (-1) 5 ≤ (0:ℚ))]

theorem clampFatigue_zero : clampFatigue 0 = 0 := by
  rw [clampFatigue, min_eq_right (by decide : (0:ℚ) ≤ mkRat 1 5),
    max_eq_right (le_refl (0:ℚ))]

theorem deltaOfInput_nonFinite {v : PyV} {m1 m2 : String}
    (h : nonFiniteInput v) :
    (deltaOfInput v m1 m2).1 = 0 ∧
    ((deltaOfInput v m1 m2).2 = [m1] ∨ (deltaOfInput v m1 m2).2 = [m2]) := by
  rcases h with h | h | h | h <;> simp [deltaOfInput, h]

theorem normState_spec (q : PyDict) :
    ∃ t0 f0 : ℚ,
      (normState q).1 = setKey q "state_updates"
        (.vDict [("trust_delta", .vFloat (.finite (clampTrust t0))),
                 ("fatigue_delta", .vFloat (.finite (clampFatigue f0)))]) ∧
      (nonFiniteInput (trustDeltaInput q) → t0 = 0 ∧
        ("trust_delta was not numeric, set to 0.0" ∈ (normState q).2 ∨
         "trust_delta was NaN/inf, set to 0.0" ∈ (normState q).2)) ∧
      (nonFiniteInput (fatigueDeltaInput q) → f0 = 0 ∧
        ("fatigue_delta was not numeric, set to 0.0" ∈ (normState q).2 ∨
         "fatigue_delta was NaN/inf, set to 0.0" ∈ (normState q).2)) := by
  refine ⟨_, _, rfl, fun ht => ?_, fun hf => ?_⟩
  · unfold trustDeltaInput at ht
    obtain ⟨h0, hw⟩ := @deltaOfInput_nonFinite _
      "trust_delta was not numeric, set to 0.0"
      "trust_delta was NaN/inf, set to 0.0" ht
    refine ⟨h0, ?_⟩
    unfold normState
    rcases hw with hw | hw
    · left
      simp only [List.mem_append]
      left; left; left; right
      rw [hw]
      exact List.mem_singleton.mpr rfl
    · right
      simp only [List.mem_append]
      left; left; left; right
      rw [hw]
      exact List.mem_singleton.mpr rfl
  · unfold fatigueDeltaInput at hf
    obtain ⟨h0, hw⟩ := @deltaOfInput_nonFinite _
      "fatigue_delta was not numeric, set to 0.0"
      "fatigue_delta was NaN/inf, set to 0.0" hf
    refine ⟨h0, ?_⟩
    unfold normState
    rcases hw with hw | hw
    · left
      simp only [List.mem_append]
      left; right
      rw [hw]
      exact List.mem_singleton.mpr rfl
    · right
      simp only [List.mem_append]
      left; right
      rw [hw]
      exact List.mem_singleton.mpr rfl

theorem getKey?_ensureTelemetry_other (p : PyDict) {k : String}
    (hk : k ≠ "telemetry") : getKey? (ensureTelemetry p) k = getKey? p k := by
  unfold ensureTelemetry
  split
  · rfl
  · exact getKey?_setKey_other _ _ _ _ hk

theorem normContentPlan_ok_preserves {p : PyDict} {cands : List PyV}
    {rw : PyDict × List String} (h : normContentPlan p cands = .ok rw)
    {k : String} (h1 : k ≠ "content_plan") (h2 : k ≠ "telemetry") :
    getKey? rw.1 k = getKey? p k := by
  unfold normContentPlan at h
  split at h
  · split at h
    · split at h
      · cases h
        rw [getKey?_setKey_other _ _ _ _ h1, getKey?_setKey_other _ _ _ _ h2,
          getKey?_ensureTelemetry_other _ h2]
      · exact Except.noConfusion h
    · cases h
      exact getKey?_setKey_other _ _ _ _ h1
  · cases h
    exact getKey?_setKey_other _ _ _ _ h1

theorem normStyle_ok_preserves {p : PyDict} {rw : PyDict × List String}
    (h : normStyle p = .ok rw) {k : String} (hk : k ≠ "style_directives") :
    getKey? rw.1 k = getKey? p k := by
  unfold normStyle at h
  split at h
  · exact Except.noConfusion h
  · split at h
    · exact Except.noConfusion h
    · cases h
      exact getKey?_setKey_other _ _ _ _ hk

theorem normTelemetry_fst (p : PyDict) (cands : List PyV) :
    ∃ x, (normTelemetry p cands).1 = setKey p "telemetry" x :=
  ⟨_, rfl⟩

/-- C5.  The failing input: a payload whose `style_directives.tempo` is a
list.  The source's `tempo not in {"slow", "medium", "fast"}` hashes the
value and raises `TypeError`, although the docstring promises "Does not
raise exceptions" and the spec demands totality for arbitrary input.  For
every input on which the validator does complete, the returned
`state_updates` always carries finite `trust_delta ∈ [-0.2, 0.2]` and
`fatigue_delta ∈ [0.0, 0.2]`, and a non-finite or non-numeric input delta is
mapped to 0.0 with a warning recorded. -/
theorem validate_reason_payload_bug :
    validateReasonPayload
      (.vDict [("style_directives", .vDict [("tempo", .vList [])])])
      (.vList []) = .error "TypeError" ∧
    ∀ payload candidates r w,
      validateReasonPayload payload candidates = .ok (r, w) →
      ∃ t fq : ℚ,
        getKey? r "state_updates" = some
          (.vDict [("trust_delta", .vFloat (.finite t)),
                   ("fatigue_delta", .vFloat (.finite fq))]) ∧
        mkRat (-1) 5 ≤ t ∧ t ≤ mkRat 1 5 ∧ 0 ≤ fq ∧ fq ≤ mkRat 1 5 ∧
        (nonFiniteInput (trustDeltaInput (pyDictOf payload)) →
          t = 0 ∧
          ("trust_delta was not numeric, set to 0.0" ∈ w ∨
           "trust_delta was NaN/inf, set to 0.0" ∈ w)) ∧
        (nonFiniteInput (fatigueDeltaInput (pyDictOf payload)) →
          fq = 0 ∧
          ("fatigue_delta was not numeric, set to 0.0" ∈ w ∨
           "fatigue_delta was NaN/inf, set to 0.0" ∈ w)) := by
  constructor
  · rfl
  · intro payload candidates r w h
    unfold validateReasonPayload at h
    rcases h1 : normContentPlan (pyDictOf payload) (pyListOf candidates)
      with e | r1
    · rw [h1] at h
      exact Except.noConfusion h
    rw [h1] at h
    dsimp only at h
    rcases h2 : normStyle r1.1 with e | r2
    · rw [h2] at h
      exact Except.noConfusion h
    rw [h2] at h
    dsimp only at h
    obtain ⟨t0, f0, hshape, htrust, hfatigue⟩ := normState_spec r2.1
    obtain ⟨x4, hx4⟩ := normTelemetry_fst (normState r2.1).1
      (pyListOf candidates)
    have hsu_r4 : getKey? (normTelemetry (normState r2.1).1
        (pyListOf candidates)).1 "state_updates" = some
        (.vDict [("trust_delta", .vFloat (.finite (clampTrust t0))),
                 ("fatigue_delta", .vFloat (.finite (clampFatigue f0)))]) := by
      rw [hx4, getKey?_setKey_other _ _ _ _ (by decide), hshape,
        getKey?_setKey_same]
    have hsu_r5 : getKey? (ensureTelemetry (normTelemetry (normState r2.1).1
        (pyListOf candidates)).1) "state_updates" = some
        (.vDict [("trust_delta", .vFloat (.finite (clampTrust t0))),
                 ("fatigue_delta", .vFloat (.finite (clampFatigue f0)))]) := by
      rw [getKey?_ensureTelemetry_other _ (by decide), hsu_r4]
    have hinput_t : trustDeltaInput r2.1 =
        trustDeltaInput (pyDictOf payload) := by
      unfold trustDeltaInput suDict getD
      rw [normStyle_ok_preserves h2 (by decide),
        normContentPlan_ok_preserves h1 (by decide) (by decide)]
    have hinput_f : fatigueDeltaInput r2.1 =
        fatigueDeltaInput (pyDictOf payload) := by
      unfold fatigueDeltaInput suDict getD
      rw [normStyle_ok_preserves h2 (by decide),
        normContentPlan_ok_preserves h1 (by decide) (by decide)]
    have hmemw : ∀ s, s ∈ (normState r2.1).2 →
        s ∈ r1.2 ++ r2.2 ++ (normState r2.1).2 ++
          (normTelemetry (normState r2.1).1 (pyListOf candidates)).2 := by
      intro s hs
      simp only [List.mem_append]
      left; right
      exact hs
    have hconc : ∀ rr, getKey? rr "state_updates" = some
        (.vDict [("trust_delta", .vFloat (.finite (clampTrust t0))),
                 ("fatigue_delta", .vFloat (.finite (clampFatigue f0)))]) →
        w = r1.2 ++ r2.2 ++ (normState r2.1).2 ++
          (normTelemetry (normState r2.1).1 (pyListOf candidates)).2 →
        r = rr →
        ∃ t fq : ℚ,
        getKey? r "state_updates" = some
          (.vDict [("trust_delta", .vFloat (.finite t)),
                   ("fatigue_delta", .vFloat (.finite fq))]) ∧
        mkRat (-1) 5 ≤ t ∧ t ≤ mkRat 1 5 ∧ 0 ≤ fq ∧ fq ≤ mkRat 1 5 ∧
        (nonFiniteInput (trustDeltaInput (pyDictOf payload)) →
          t = 0 ∧
          ("trust_delta was not numeric, set to 0.0" ∈ w ∨
           "trust_delta was NaN/inf, set to 0.0" ∈ w)) ∧
        (nonFiniteInput (fatigueDeltaInput (pyDictOf payload)) →
          fq = 0 ∧
          ("fatigue_delta was not numeric, set to 0.0" ∈ w ∨
           "fatigue_delta was NaN/inf, set to 0.0" ∈ w)) := by
      intro rr hrr hw hr
      subst hr hw
      refine ⟨clampTrust t0, clampFatigue f0, hrr, clampTrust_lb t0,
        clampTrust_ub t0, clampFatigue_lb f0, clampFatigue_ub f0,
        fun hnf => ?_, fun hnf => ?_⟩
      · rw [← hinput_t] at hnf
        obtain ⟨h0, hw⟩ := htrust hnf
        rw [h0, clampTrust_zero]
        exact ⟨rfl, hw.imp (hmemw _) (hmemw _)⟩
      · rw [← hinput_f] at hnf
        obtain ⟨h0, hw⟩ := hfatigue hnf
        rw [h0, clampFatigue_zero]
        exact ⟨rfl, hw.imp (hmemw _) (hmemw _)⟩
    unfold validateAssemble at h
    split at h
    · cases h
      exact hconc _ hsu_r5 rfl rfl
    · split at h
      · cases h
        refine hconc _ ?_ rfl rfl
        rw [getKey?_setKey_other _ _ _ _ (by decide), hsu_r5]
      · exact Except.noConfusion h

/-- Witness for the universally quantified part of the C5 theorem, at a
payload whose `trust_delta` is NaN. -/
theorem validate_reason_payload_bug_witness :
    ∃ r w, validateReasonPayload
      (.vDict [("state_updates", .vDict [("trust_delta", .vFloat .nan)])])
      (.vList []) = .ok (r, w) ∧
    ∃ t fq : ℚ,
      getKey? r "state_updates" = some
        (.vDict [("trust_delta", .vFloat (.finite t)),
                 ("fatigue_delta", .vFloat (.finite fq))]) ∧
      mkRat (-1) 5 ≤ t ∧ t ≤ mkRat 1 5 ∧ 0 ≤ fq ∧ fq ≤ mkRat 1 5 ∧
      (nonFiniteInput (trustDeltaInput (pyDictOf
          (.vDict [("state_updates", .vDict [("trust_delta", .vFloat .nan)])]))) →
        t = 0 ∧
        ("trust_delta was not numeric, set to 0.0" ∈ w ∨
         "trust_delta was NaN/inf, set to 0.0" ∈ w)) ∧
      (nonFiniteInput (fatigueDeltaInput (pyDictOf
          (.vDict [("state_updates", .vDict [("trust_delta", .vFloat .nan)])]))) →
        fq = 0 ∧
        ("fatigue_delta was not numeric, set to 0.0" ∈ w ∨
         "fatigue_delta was NaN/inf, set to 0.0" ∈ w)) :=
  ⟨_, _, rfl,
    validate_reason_payload_bug.2
      (.vDict [("state_updates", .vDict [("trust_delta", .vFloat .nan)])])
      (.vList []) _ _ rfl⟩

/-! ## LLM reasoner — `app/orchestrator/nodes/reason_llm.py`

`reason_llm` calls the DeepSeek client (modelled as an `LLMOutcome`: either a
raised network/API exception or a response with its list of choice messages),
reads the answer text from `reasoning_content` or `content` (Python `or`:
an empty `reasoning_content` falls through), parses it with the stdlib
`json.loads` (an external collaborator here, passed as a parameter
`jsonLoads`; `none` models a raised `JSONDecodeError`), patches missing or
mistyped fields, and on any failure returns `_create_fallback_response`. -/

structure LLMMessage where
  /-- `message.get("reasoning_content")`; `none` covers both an absent key
  and `None` (both falsy for the `or`). -/
  reasoning_content : Option String
  /-- `message.get("content", "")`; `none` covers an absent key. -/
  content : Option String

inductive LLMOutcome where
  | raises
  | returns (choices : List LLMMessage)

/-- `message.get("reasoning_content") or message.get("content", "")`. -/
def llmContent (msg : LLMMessage) : String :=
  match msg.reasoning_content with
  | some s => if s = "" then msg.content.getD "" else s
  | none => msg.content.getD ""

/-- `_create_fallback_response`: fixed confused sentence, calm/short style,
`trust_delta = -0.1`, `fatigue_delta = 0.05`, telemetry with empty
`chosen_ids` (and nothing else). -/
def reasonLlmFallback : PyDict :=
  [("content_plan", .vList [.vStr "I'm feeling a bit confused right now" none]),
   ("style_directives", .vDict [("tempo", .vStr "calm" none),
                                ("length", .vStr "short" none)]),
   ("state_updates", .vDict [("trust_delta", .vFloat (.finite (mkRat (-1) 10))),
                             ("fatigue_delta", .vFloat (.finite (mkRat 1 20)))]),
   ("telemetry", .vDict [("chosen_ids", .vList [])])]

/-- `if key not in result: result[key] = v`. -/
def ensureKey (m : PyDict) (k : String) (v : PyV) : PyDict :=
  if hasKey m k then m else setKey m k v

/-- Model of Python `str()` where the fix-up path applies it.  Containers and
floats render abbreviated; no claim depends on the rendered text. -/
def pyStr : PyV → String
  | .vNone => "None"
  | .vBool b => if b then "True" else "False"
  | .vInt n => toString n
  | .vFloat (.finite q) => toString q
  | .vFloat .nan => "nan"
  | .vFloat .inf => "inf"
  | .vFloat .ninf => "-inf"
  | .vStr s _ => s
  | .vList _ => "<list>"
  | .vDict _ => "<dict>"

/-- The default-and-type-fix block of `reason_llm` applied to the parsed
JSON.  A non-dict parse result makes the Python `in`/item-assignment raise
`TypeError`, which the outer `except` turns into the fallback. -/
def fixupLlmResult : PyV → PyDict
  | .vDict m =>
      let m4 :=
        ensureKey (ensureKey (ensureKey (ensureKey m "content_plan"
          (.vList [.vStr "I'm feeling a bit confused right now" none]))
          "style_directives" (.vDict [("tempo", .vStr "medium" none),
                                      ("length", .vStr "short" none)]))
          "state_updates" (.vDict [("trust_delta", .vFloat (.finite 0)),
                                   ("fatigue_delta", .vFloat (.finite 0))]))
          "telemetry" (.vDict [("chosen_ids", .vList [])])
      let m5 := match getD m4 "content_plan" (.vList []) with
        | .vList _ => m4
        | v => setKey m4 "content_plan" (.vList [.vStr (pyStr v) none])
      let m6 := match getD m5 "style_directives" (.vDict []) with
        | .vDict sd => setKey m5 "style_directives"
            (.vDict (ensureKey (ensureKey sd "tempo" (.vStr "medium" none))
              "length" (.vStr "short" none)))
        | _ => setKey m5 "style_directives"
            (.vDict [("tempo", .vStr "medium" none),
                     ("length", .vStr "short" none)])
      let m7 := match getD m6 "state_updates" (.vDict []) with
        | .vDict su => setKey m6 "state_updates"
            (.vDict (ensureKey (ensureKey su "trust_delta"
              (.vFloat (.finite 0))) "fatigue_delta" (.vFloat (.finite 0))))
        | _ => setKey m6 "state_updates"
            (.vDict [("trust_delta", .vFloat (.finite 0)),
                     ("fatigue_delta", .vFloat (.finite 0))])
      match getD m7 "telemetry" (.vDict []) with
      | .vDict t =>
          if hasKey t "chosen_ids" then m7
          else setKey m7 "telemetry" (.vDict [("chosen_ids", .vList [])])
      | _ => setKey m7 "telemetry" (.vDict [("chosen_ids", .vList [])])
  | _ => reasonLlmFallback

/-- `reason_llm`: empty/missing choices, an unparseable answer, or any raised
exception all produce the fallback; a parsed dict goes through the fix-up. -/
def reasonLlm (jsonLoads : String → Option PyV) (outcome : LLMOutcome) :
    PyDict :=
  match outcome with
  | .raises => reasonLlmFallback
  | .returns [] => reasonLlmFallback
  | .returns (msg :: _) =>
      match jsonLoads (llmContent msg) with
      | none => reasonLlmFallback
      | some j => fixupLlmResult j

/-- C6.  When the LLM reply contains no parseable JSON (or the call raises),
`reason_llm` returns the fallback payload with `trust_delta = -0.1`,
`fatigue_delta = 0.05`, tempo `"calm"`, length `"short"` and the fixed
confused sentence — but its telemetry is exactly `{"chosen_ids": []}`:
the `llm_parse_error = true` flag required by the claim (and by the repo's
own test `test_reason_llm_fallback_on_garbage_response`) is never set. -/
theorem reason_llm_parse_error_flag_bug :
    (∀ jl : String → Option PyV, ∀ msg rest,
      jl (llmContent msg) = none →
      reasonLlm jl (.returns (msg :: rest)) = reasonLlmFallback) ∧
    reasonLlm (fun _ => none)
      (.returns [⟨none, some "The patient seems to be experiencing some difficulties. Just random text without proper structure."⟩])
      = reasonLlmFallback ∧
    (∀ jl, reasonLlm jl .raises = reasonLlmFallback) ∧
    getKey? reasonLlmFallback "state_updates" = some
      (.vDict [("trust_delta", .vFloat (.finite (mkRat (-1) 10))),
               ("fatigue_delta", .vFloat (.finite (mkRat 1 20)))]) ∧
    getKey? reasonLlmFallback "content_plan" = some
      (.vList [.vStr "I'm feeling a bit confused right now" none]) ∧
    getKey? reasonLlmFallback "style_directives" = some
      (.vDict [("tempo", .vStr "calm" none),
               ("length", .vStr "short" none)]) ∧
    getKey? reasonLlmFallback "telemetry" = some
      (.vDict [("chosen_ids", .vList [])]) ∧
    (∀ t, getKey? reasonLlmFallback "telemetry" = some (.vDict t) →
      getKey? t "llm_parse_error" = none) := by
  refine ⟨?_, rfl, fun _ => rfl, rfl, rfl, rfl, rfl, ?_⟩
  · intro jl msg rest h
    unfold reasonLlm
    dsimp only
    rw [h]
  · intro t ht
    have h' : t = [("chosen_ids", PyV.vList [])] := by
      injection ht with h1
      injection h1 with h2
      exact h2.symm
    rw [h']
    rfl

/-- Witness for the quantified part of the C6 theorem. -/
theorem reason_llm_parse_error_flag_bug_witness :
    ((fun _ => (none : Option PyV))
      (llmContent ⟨none, some "plain prose"⟩) = none) ∧
    reasonLlm (fun _ => none)
      (.returns [⟨none, some "plain prose"⟩]) = reasonLlmFallback :=
  ⟨rfl, reason_llm_parse_error_flag_bug.1 (fun _ => none)
    ⟨none, some "plain prose"⟩ [] rfl⟩

/-! ## Stub reasoner — `app/orchestrator/nodes/reason.py` -/

def defaultStyle : PyDict :=
  [("tempo", .vStr "medium" none), ("length", .vStr "short" none)]

/-- `_extract_style_directives`: defaults for a falsy `policies`, the
`style_profile` entries when it is a dict, defaults otherwise.  A truthy
non-dict `policies` raises `AttributeError` at `.get`. -/
def extractStyleDirectives (policies : PyV) : Except String PyDict :=
  if !pyTruthy policies then .ok defaultStyle
  else
    match policies with
    | .vDict m =>
        match getD m "style_profile" (.vDict []) with
        | .vDict sp =>
            .ok [("tempo", getD sp "tempo" (.vStr "medium" none)),
                 ("length", getD sp "length" (.vStr "short" none))]
        | _ => .ok defaultStyle
    | _ => .error "AttributeError"

/-- The candidate loop of `reason`: texts and ids of the first two candidate
dicts carrying a `"text"` key.  (Non-dict candidates are skipped here; the
retriever only ever yields dicts.) -/
def reasonChosen (candidates : List PyV) : List PyV × List PyV :=
  ((candidates.take 2).filterMap (fun c =>
      match c with
      | .vDict m => if hasKey m "text" then getKey? m "text" else none
      | _ => none),
   (candidates.take 2).filterMap (fun c =>
      match c with
      | .vDict m =>
          if hasKey m "text" then some (getD m "id" (.vStr "unknown" none))
          else none
      | _ => none))

/-- `reason(case_truth, session_state, candidates, policies)`: deterministic
stub.  `trust_delta` is +0.02 with candidates, −0.01 without;
`fatigue_delta` 0; `distortions_plan` always empty. -/
def reasonStub (_case_truth : PyV) (_session_state : PyV)
    (candidates : List PyV) (policies : PyV) : Except String PyDict :=
  match extractStyleDirectives policies with
  | .error e => .error e
  | .ok sd =>
      .ok [("content_plan", .vList (reasonChosen candidates).1),
           ("distortions_plan", .vList []),
           ("style_directives", .vDict sd),
           ("state_updates", .vDict
             [("trust_delta", .vFloat (.finite
               (if candidates.isEmpty then mkRat (-1) 100 else mkRat 1 50))),
              ("fatigue_delta", .vFloat (.finite 0))]),
           ("telemetry", .vDict
             [("candidates_count", .vInt candidates.length),
              ("chosen_count", .vInt (reasonChosen candidates).2.length),
              ("chosen_ids", .vList (reasonChosen candidates).2),
              ("content_plan_size", .vInt (reasonChosen candidates).1.length)])]

/-! ## Trajectory tracking — `pipeline.update_trajectory_progress` -/

structure TStep where
  id : String
  condition_tags : List String
  min_trust : ℚ
deriving DecidableEq, Repr

structure TrajectoryM where
  id : String
  steps : List TStep
deriving DecidableEq, Repr

/-- Per-session progress: trajectory id → completed step ids. -/
abbrev Progress := List (String × List String)

/-- The session's completed steps for a trajectory (`[]` when no row). -/
def progressOf : Progress → String → List String
  | [], _ => []
  | (t, steps) :: rest, tid => if t == tid then steps else progressOf rest tid

/-- Upsert of the per-session trajectory row. -/
def setProgress : Progress → String → List String → Progress
  | [], tid, steps => [(tid, steps)]
  | (t, s) :: rest, tid, steps =>
      if t == tid then (tid, steps) :: rest
      else (t, s) :: setProgress rest tid steps

/-- The tags of the fragments used this turn (a set in the source; only
membership and emptiness are consumed). -/
def usedTags (db : List Fragment) (used_fragments : List String) :
    List String :=
  (db.filter (fun f => used_fragments.contains f.id)).flatMap (fun f => f.tags)

/-- One step's completion test: not already completed, trust ≥ `min_trust`,
and no condition tags or an intersection with the used tags. -/
def stepEligible (tags : List String) (trust : ℚ) (existing : List String)
    (s : TStep) : Bool :=
  !existing.contains s.id && decide (s.min_trust ≤ trust) &&
    (s.condition_tags.isEmpty ||
     s.condition_tags.any (fun t => tags.contains t))

/-- The step ids newly completed for one trajectory. -/
def processedSteps (tags : List String) (trust : ℚ) (existing : List String)
    (traj : TrajectoryM) : List String :=
  (traj.steps.filter (stepEligible tags trust existing)).map (fun s => s.id)

/-- One trajectory's pass: append the newly completed steps, writing only
when there are any. -/
def processTrajectory (tags : List String) (trust : ℚ) (prog : Progress)
    (traj : TrajectoryM) : Progress :=
  if (processedSteps tags trust (progressOf prog traj.id) traj).isEmpty then
    prog
  else
    setProgress prog traj.id (progressOf prog traj.id ++
      processedSteps tags trust (progressOf prog traj.id) traj)

/-- `update_trajectory_progress`: early return when there are no
trajectories, no used fragments, or the used fragments carry no tags; else
process each trajectory.  (Its internal `except` swallows errors; the
function never raises.) -/
def updateTrajectoryProgress (db : List Fragment)
    (trajectories : List TrajectoryM) (trust : ℚ)
    (used_fragments : List String) (prog : Progress) : Progress :=
  if trajectories.isEmpty || used_fragments.isEmpty then prog
  else if (usedTags db used_fragments).isEmpty then prog
  else trajectories.foldl
    (processTrajectory (usedTags db used_fragments) trust) prog

/-! ## Pipeline orchestrator — `pipeline.run_turn`

The awaited collaborator calls of `run_turn` (session lookup, policy and
case-truth loads, the retriever's result as candidate dicts, the LLM
reasoner, the LLM generator, the telemetry append, the trajectory write) are
environment data; a raised exception is an `Except.error`.  `normalize`,
`reason` (stub), and `guard` are the functions modelled above.  Pydantic
validation of the final `TurnResponse` is not modelled. -/

structure TurnEnv where
  sessionFound : Except String Bool
  policiesRes : Except String PyV
  retrieveRes : Except String (List PyV)
  caseTruthRes : Except String PyV
  useDeepseekReason : Bool
  llmReasonRes : Except String PyV
  useDeepseekGen : Bool
  generateRes : Except String String
  telemetryRes : Except String Unit
  trajectoryRes : Except String Unit

structure TurnResponseM where
  patient_reply : String
  state_updates : PyV
  used_fragments : PyV
  risk_status : String
  eval_markers : PyV

/-- The fixed safe fallback `TurnResponse`. -/
def safeFallbackResponse : TurnResponseM :=
  ⟨"safe-fallback", .vDict [], .vList [], "none", .vDict []⟩

/-- Python `len()`. -/
def pyLen : PyV → Except String ℕ
  | .vList xs => .ok xs.length
  | .vDict m => .ok m.length
  | .vStr s _ => .ok s.toList.length
  | _ => .error "TypeError"

/-- Python `v[k]` with a string key. -/
def pyGetItem (v : PyV) (k : String) : Except String PyV :=
  match v with
  | .vDict m =>
      match getKey? m k with
      | some x => .ok x
      | none => .error "KeyError"
  | _ => .error "TypeError"

/-- Python `v[0]`. -/
def pyIndex0 : PyV → Except String PyV
  | .vList (x :: _) => .ok x
  | .vList [] => .error "IndexError"
  | .vStr s _ =>
      if s = "" then .error "IndexError" else .ok (.vStr (pyTake s 1) none)
  | _ => .error "TypeError"

/-- The plain reply `f"Plan:{len(...)} intent={...} risk={...}"`. -/
def planFormat (g : GuardResult) (intent : String) : Except String String :=
  match pyGetItem g.safe_output "content_plan" with
  | .error e => .error e
  | .ok cp =>
      match pyLen cp with
      | .error e => .error e
      | .ok n =>
          .ok ("Plan:" ++ toString n ++ " intent=" ++ intent ++ " risk=" ++
            (if g.risk_status == "acute" then "acute" else "none"))

/-- The body of the `USE_DEEPSEEK_GEN` try-block: the guarded plan and style
lookups, the patient-context construction (`case_truth.get("dx_target",
["unknown condition"])[0]`), then the LLM generation call. -/
def genAttempt (env : TurnEnv) (g : GuardResult) (case_truth : PyV) :
    Except String String :=
  match pyGetItem g.safe_output "content_plan" with
  | .error e => .error e
  | .ok _ =>
      match pyGetItem g.safe_output "style_directives" with
      | .error e => .error e
      | .ok _ =>
          match case_truth with
          | .vDict m =>
              match pyIndex0 (getD m "dx_target"
                  (.vList [.vStr "unknown condition" none])) with
              | .error e => .error e
              | .ok _ => env.generateRes
          | _ => .error "AttributeError"

/-- `r["state_updates"] | {"last_turn_summary": ...}` (dict merge). -/
def pyMergeSummary (v : PyV) (summary : String) : Except String PyV :=
  match v with
  | .vDict m => .ok (.vDict (setKey m "last_turn_summary"
      (.vStr summary none)))
  | _ => .error "TypeError"

/-- `r["telemetry"].get("chosen_ids", [])`. -/
def usedFragmentsOf (r : PyV) : Except String PyV :=
  match pyGetItem r "telemetry" with
  | .error e => .error e
  | .ok (.vDict m) => .ok (getD m "chosen_ids" (.vList []))
  | .ok _ => .error "AttributeError"

/-- `update_trajectory_progress` never lets an exception out (internal
`try`/`except` with rollback). -/
def trajectoryStepCaught : Except String Unit → Unit
  | _ => ()

/-- The `try:` block of `run_turn` (everything before the outer handler). -/
def runTurnBody (env : TurnEnv) (u : String) (st : PyV) :
    Except String TurnResponseM :=
  match env.sessionFound with
  | .error e => .error e
  | .ok false => .error "ValueError: session not found"
  | .ok true =>
  match env.policiesRes with
  | .error e => .error e
  | .ok policies =>
  match env.retrieveRes with
  | .error e => .error e
  | .ok cands =>
  match env.caseTruthRes with
  | .error e => .error e
  | .ok case_truth =>
  match (if env.useDeepseekReason then
      match env.llmReasonRes with
      | .ok v => Except.ok v
      | .error _ => Except.map PyV.vDict
          (reasonStub case_truth st cands policies)
    else Except.map PyV.vDict (reasonStub case_truth st cands policies)) with
  | .error e => .error e
  | .ok r =>
  match guard r policies (normalize u st policies).risk_flags with
  | .error e => .error e
  | .ok g =>
  match (if env.useDeepseekGen then
      match genAttempt env g case_truth with
      | .ok s => Except.ok s
      | .error _ => planFormat g (normalize u st policies).intent
    else planFormat g (normalize u st policies).intent) with
  | .error e => .error e
  | .ok patient_reply =>
  match pyGetItem r "state_updates" with
  | .error e => .error e
  | .ok su0 =>
  match pyMergeSummary su0 (normalize u st policies).last_turn_summary with
  | .error e => .error e
  | .ok state_updates =>
  match usedFragmentsOf r with
  | .error e => .error e
  | .ok used_fragments =>
  match env.telemetryRes with
  | .error e => .error e
  | .ok _ =>
  match trajectoryStepCaught env.trajectoryRes with
  | _ =>
      .ok ⟨patient_reply, state_updates, used_fragments, g.risk_status,
        .vDict [("intent", .vStr (normalize u st policies).intent none),
                ("topics", .vList ((normalize u st policies).topics.map
                  (fun t => .vStr t none)))]⟩

/-- `run_turn`: the outer `except Exception` converts any raised exception
into the fixed safe fallback response. -/
def runTurn (env : TurnEnv) (u : String) (st : PyV) : TurnResponseM :=
  match runTurnBody env u st with
  | .ok r => r
  | .error _ => safeFallbackResponse

/-- C7.  `run_turn` never propagates an exception: whenever any step of the
pipeline body raises, the outer handler returns exactly the fixed fallback
response (`patient_reply = "safe-fallback"`, empty `state_updates`,
`used_fragments`, `eval_markers`, `risk_status = "none"`); otherwise the
body's own response is returned. -/
theorem run_turn_catches_everything (env : TurnEnv) (u : String) (st : PyV) :
    (∀ e, runTurnBody env u st = .error e →
      runTurn env u st = safeFallbackResponse) ∧
    (runTurn env u st = safeFallbackResponse ∨
      runTurnBody env u st = .ok (runTurn env u st)) ∧
    safeFallbackResponse.patient_reply = "safe-fallback" ∧
    safeFallbackResponse.state_updates = .vDict [] ∧
    safeFallbackResponse.used_fragments = .vList [] ∧
    safeFallbackResponse.eval_markers = .vDict [] ∧
    safeFallbackResponse.risk_status = "none" := by
  refine ⟨?_, ?_, rfl, rfl, rfl, rfl, rfl⟩
  · intro e he
    unfold runTurn
    rw [he]
  · unfold runTurn
    rcases h : runTurnBody env u st with e | r
    · left
      rfl
    · right
      rfl

/-- Witness for C7: a database failure at the session lookup yields the safe
fallback. -/
theorem run_turn_catches_everything_witness :
    runTurnBody ⟨.error "db down", .ok (.vDict []), .ok [], .ok (.vDict []),
      false, .ok (.vDict []), false, .ok "", .ok (), .ok ()⟩ "" (.vDict [])
      = .error "db down" ∧
    runTurn ⟨.error "db down", .ok (.vDict []), .ok [], .ok (.vDict []),
      false, .ok (.vDict []), false, .ok "", .ok (), .ok ()⟩ "" (.vDict [])
      = safeFallbackResponse :=
  ⟨rfl,
    (run_turn_catches_everything ⟨.error "db down", .ok (.vDict []), .ok [],
      .ok (.vDict []), false, .ok (.vDict []), false, .ok "", .ok (),
      .ok ()⟩ "" (.vDict [])).1 "db down" rfl⟩

/-- A public fragment whose metadata carries no tags. -/
def noTagFrag : Fragment :=
  { id := "f-notag", ftype := "bio", text := "Просто факт", caseId := "c1",
    availability := "public", topic := none, tags := [],
    disclosure := none, embedding := none }

/-- A trajectory with a single unconditional zero-trust step. -/
def trajT1 : TrajectoryM := ⟨"t1", [⟨"s1", [], 0⟩]⟩

/-- C8 counterexample.  A fragment was used this turn but carries no
metadata tags; the step `s1` has no condition tags and `min_trust = 0 ≤`
the session trust, so by the claim's "if and only if" it should be marked —
but `update_trajectory_progress` returns early (`if not used_tags: return`)
and marks nothing. -/
theorem trajectory_progress_counterexample :
    updateTrajectoryProgress [noTagFrag] [trajT1] (mkRat 1 2) ["f-notag"] []
      = [] ∧
    trajT1.steps = [⟨"s1", [], 0⟩] ∧
    ((0 : ℚ) ≤ mkRat 1 2) ∧
    "s1" ∉ progressOf (updateTrajectoryProgress [noTagFrag] [trajT1]
      (mkRat 1 2) ["f-notag"] []) "t1" := by
  refine ⟨rfl, rfl, by decide, by decide⟩

theorem progressOf_setProgress_same (prog : Progress) (tid : String)
    (steps : List String) : progressOf (setProgress prog tid steps) tid = steps := by
  induction prog with
  | nil => simp [setProgress, progressOf]
  | cons kv rest ih =>
      obtain ⟨t, s⟩ := kv
      by_cases h : t = tid
      · simp [setProgress, h, progressOf]
      · simpa [setProgress, h, progressOf] using ih

theorem progressOf_setProgress_other (prog : Progress) (tid tid' : String)
    (steps : List String) (h : tid' ≠ tid) :
    progressOf (setProgress prog tid steps) tid' = progressOf prog tid' := by
  induction prog with
  | nil => simp [setProgress, progressOf, Ne.symm h]
  | cons kv rest ih =>
      obtain ⟨t, s⟩ := kv
      by_cases ht : t = tid
      · subst ht
        simp [setProgress, progressOf, Ne.symm h]
      · by_cases ht' : t = tid'
        · subst ht'
          simp [setProgress, ht, progressOf]
        · simpa [setProgress, ht, progressOf, ht'] using ih

theorem progressOf_processTrajectory_same (tags : List String) (trust : ℚ)
    (prog : Progress) (traj : TrajectoryM) :
    progressOf (processTrajectory tags trust prog traj) traj.id =
    progressOf prog traj.id ++
      processedSteps tags trust (progressOf prog traj.id) traj := by
  unfold processTrajectory
  split
  · rename_i hemp
    rw [List.isEmpty_eq_true] at hemp
    rw [hemp, List.append_nil]
  · exact progressOf_setProgress_same _ _ _

theorem progressOf_processTrajectory_other (tags : List String) (trust : ℚ)
    (prog : Progress) (traj : TrajectoryM) (tid : String)
    (h : tid ≠ traj.id) :
    progressOf (processTrajectory tags trust prog traj) tid =
    progressOf prog tid := by
  unfold processTrajectory
  split
  · rfl
  · exact progressOf_setProgress_other _ _ _ _ h

theorem progressOf_foldl_untouched (tags : List String) (trust : ℚ)
    (l : List TrajectoryM) (prog : Progress) (tid : String)
    (h : ∀ x ∈ l, x.id ≠ tid) :
    progressOf (l.foldl (processTrajectory tags trust) prog) tid =
    progressOf prog tid := by
  induction l generalizing prog with
  | nil => rfl
  | cons x rest ih =>
      rw [List.foldl_cons, ih _ (fun y hy => h y (List.mem_cons_of_mem x hy)),
        progressOf_processTrajectory_other _ _ _ _ _
          (Ne.symm (h x (List.mem_cons_self x rest)))]

theorem progressOf_foldl_mem (tags : List String) (trust : ℚ)
    (l : List TrajectoryM) (prog : Progress) (traj : TrajectoryM)
    (htraj : traj ∈ l) (hnd : (l.map (fun t => t.id)).Nodup) :
    progressOf (l.foldl (processTrajectory tags trust) prog) traj.id =
    progressOf prog traj.id ++
      processedSteps tags trust (progressOf prog traj.id) traj := by
  induction l generalizing prog with
  | nil => cases htraj
  | cons x rest ih =>
      rw [List.map_cons, List.nodup_cons] at hnd
      rcases List.mem_cons.mp htraj with hx | hx
      · subst hx
        rw [List.foldl_cons,
          progressOf_foldl_untouched _ _ rest _ _
            (fun y hy he => hnd.1
              (by rw [← he]; exact List.mem_map_of_mem _ hy)),
          progressOf_processTrajectory_same]
      · have hne : traj.id ≠ x.id := by
          intro he
          exact hnd.1 (he ▸ List.mem_map_of_mem _ hx)
        rw [List.foldl_cons, ih _ hx hnd.2,
          progressOf_processTrajectory_other _ _ _ _ _ hne]

/-- C8 amended.  Provided the fragments used this turn carry at least one
metadata tag (with no used fragments, or used fragments carrying no tags,
the function returns early and marks nothing — the counterexample), and for
well-formed case truth (distinct trajectory ids, distinct step ids), a
not-yet-completed step is marked completed exactly when the session trust
reaches its `min_trust` and it has no condition tags or they intersect the
used-fragment tags; the per-session completed list is only ever appended
to, never shortened or rewritten. -/
theorem update_trajectory_progress_spec (db : List Fragment)
    (trajectories : List TrajectoryM) (trust : ℚ) (used : List String)
    (prog : Progress)
    (hnd : (trajectories.map (fun t => t.id)).Nodup)
    (htags : usedTags db used ≠ [])
    (traj : TrajectoryM) (htraj : traj ∈ trajectories)
    (hsteps : (traj.steps.map (fun s => s.id)).Nodup) :
    (∀ s ∈ traj.steps, s.id ∉ progressOf prog traj.id →
      (s.id ∈ progressOf (updateTrajectoryProgress db trajectories trust used
          prog) traj.id ↔
        s.min_trust ≤ trust ∧
        (s.condition_tags = [] ∨
          ∃ t ∈ s.condition_tags, t ∈ usedTags db used))) ∧
    (progressOf (updateTrajectoryProgress db trajectories trust used prog)
      traj.id).take (progressOf prog traj.id).length =
      progressOf prog traj.id := by
  have hused : used ≠ [] := by
    intro h
    subst h
    exact htags (by simp [usedTags])
  have c1 : (trajectories.isEmpty || used.isEmpty) = false := by
    cases trajectories with
    | nil => cases htraj
    | cons a l =>
        cases used with
        | nil => exact absurd rfl hused
        | cons b m => rfl
  have c2 : (usedTags db used).isEmpty = false := by
    cases hu : usedTags db used with
    | nil => exact absurd hu htags
    | cons a l => rfl
  have hred : updateTrajectoryProgress db trajectories trust used prog =
      trajectories.foldl (processTrajectory (usedTags db used) trust) prog := by
    unfold updateTrajectoryProgress
    rw [c1, c2]
    rfl
  rw [hred, progressOf_foldl_mem _ _ _ _ _ htraj hnd]
  constructor
  · intro s hs hnotin
    constructor
    · intro hmem
      rcases List.mem_append.mp hmem with hmem | hmem
      · exact absurd hmem hnotin
      · unfold processedSteps at hmem
        obtain ⟨s', hs'f, hid⟩ := List.mem_map.mp hmem
        obtain ⟨hs'mem, helig⟩ := List.mem_filter.mp hs'f
        have : s' = s := List.inj_on_of_nodup_map hsteps hs'mem hs hid
        subst this
        unfold stepEligible at helig
        simp only [Bool.and_eq_true, Bool.or_eq_true, decide_eq_true_eq] at helig
        refine ⟨helig.1.2, ?_⟩
        rcases helig.2 with h | h
        · exact Or.inl (List.isEmpty_eq_true.mp h)
        · obtain ⟨t, htm, htc⟩ := List.any_eq_true.mp h
          exact Or.inr ⟨t, htm, List.mem_of_elem_eq_true htc⟩
    · rintro ⟨hle, hcond⟩
      refine List.mem_append.mpr (Or.inr ?_)
      unfold processedSteps
      refine List.mem_map.mpr ⟨s, List.mem_filter.mpr ⟨hs, ?_⟩, rfl⟩
      unfold stepEligible
      simp only [Bool.and_eq_true, Bool.or_eq_true, decide_eq_true_eq,
        Bool.not_eq_true']
      refine ⟨⟨?_, hle⟩, ?_⟩
      · cases hc : (progressOf prog traj.id).contains s.id
        · rfl
        · exact absurd (List.mem_of_elem_eq_true hc) hnotin
      · rcases hcond with h | ⟨t, htm, htu⟩
        · exact Or.inl (by rw [h]; rfl)
        · refine Or.inr (List.any_eq_true.mpr ⟨t, htm, ?_⟩)
          exact List.elem_eq_true_of_mem htu
  · exact List.take_left _ _

/-- A trajectory matching the used tag of `sleepFrag`. -/
def trajSleep : TrajectoryM := ⟨"t1", [⟨"sleep", ["sleep"], mkRat 3 10⟩]⟩

/-- Witness for C8 (amended): with trust 0.4 and a used fragment tagged
`sleep`, the `sleep` step (threshold 0.3) is marked completed. -/
theorem update_trajectory_progress_spec_witness :
    (([trajSleep].map (fun t => t.id)).Nodup ∧
      usedTags [sleepFrag] ["f-sleep"] ≠ [] ∧ trajSleep ∈ [trajSleep] ∧
      (trajSleep.steps.map (fun s => s.id)).Nodup ∧
      TStep.mk "sleep" ["sleep"] (mkRat 3 10) ∈ trajSleep.steps ∧
      "sleep" ∉ progressOf [] "t1") ∧
    ((TStep.mk "sleep" ["sleep"] (mkRat 3 10)).id ∈
      progressOf (updateTrajectoryProgress [sleepFrag] [trajSleep]
        (mkRat 2 5) ["f-sleep"] []) trajSleep.id ↔
      (TStep.mk "sleep" ["sleep"] (mkRat 3 10)).min_trust ≤ mkRat 2 5 ∧
      ((TStep.mk "sleep" ["sleep"] (mkRat 3 10)).condition_tags = [] ∨
        ∃ t ∈ (TStep.mk "sleep" ["sleep"] (mkRat 3 10)).condition_tags,
          t ∈ usedTags [sleepFrag] ["f-sleep"])) :=
  ⟨⟨by decide, by decide, by decide, by decide, by decide, by decide⟩,
    (update_trajectory_progress_spec [sleepFrag] [trajSleep] (mkRat 2 5)
      ["f-sleep"] [] (by decide) (by decide) trajSleep (by decide)
      (by decide)).1 (TStep.mk "sleep" ["sleep"] (mkRat 3 10)) (by decide)
      (by decide)⟩

theorem risk_flags_cases (u : String) (st P : PyV) :
    (normalize u st P).risk_flags = [] ∨
    (normalize u st P).risk_flags = ["suicide_ideation"] := by
  have h0 : (normalize u st P).risk_flags =
      extractRiskFlags (pyLower u) (policyTriggerKeywords P) := rfl
  have h1 : extractRiskFlags (pyLower u) (policyTriggerKeywords P) =
      if ((if (policyTriggerKeywords P).isEmpty then defaultSuicideKeywords
          else policyTriggerKeywords P).any
          (fun k => containsSub (pyLower u) (pyLower k))) then
        ["suicide_ideation"]
      else [] := rfl
  cases hc : ((if (policyTriggerKeywords P).isEmpty then
      defaultSuicideKeywords else policyTriggerKeywords P).any
      (fun k => containsSub (pyLower u) (pyLower k)))
  · left
    rw [h0, h1, hc]
    rfl
  · right
    rw [h0, h1, hc]
    rfl

theorem reasonStub_ok_shape {ct st P : PyV} {cands : List PyV} {r₀ : PyDict}
    (h : reasonStub ct st cands P = .ok r₀) :
    ∃ sd, r₀ =
      [("content_plan", .vList (reasonChosen cands).1),
       ("distortions_plan", .vList []),
       ("style_directives", .vDict sd),
       ("state_updates", .vDict
         [("trust_delta", .vFloat (.finite
           (if cands.isEmpty then mkRat (-1) 100 else mkRat 1 50))),
          ("fatigue_delta", .vFloat (.finite 0))]),
       ("telemetry", .vDict
         [("candidates_count", .vInt cands.length),
          ("chosen_count", .vInt (reasonChosen cands).2.length),
          ("chosen_ids", .vList (reasonChosen cands).2),
          ("content_plan_size", .vInt (reasonChosen cands).1.length)])] := by
  unfold reasonStub at h
  split at h
  · exact Except.noConfusion h
  · cases h
    exact ⟨_, rfl⟩

/-- C10.  When every stage up to and including the guard succeeds and the
guard reports `risk_status = "acute"`, a database failure in
`_record_telemetry` (which rolls back and re-raises, unlike the
trajectory update) still sends `run_turn` into the outer handler: the caller
receives the safe fallback with `patient_reply = "safe-fallback"` and
`risk_status = "none"`, masking the acute status.  With the telemetry append
succeeding, a failing trajectory write changes nothing: the normal response
with `risk_status = "acute"` is returned. -/
theorem run_turn_telemetry_failure_masks_risk
    (u : String) (st P CT : PyV) (cands : List PyV) (r₀ : PyDict)
    (e e' : String) (llmRes : Except String PyV)
    (genRes : Except String String) (trajRes : Except String Unit)
    (hreason : reasonStub CT st cands P = .ok r₀)
    (hrisk : (normalize u st P).risk_flags ≠ []) :
    (runTurn ⟨.ok true, .ok P, .ok cands, .ok CT, false, llmRes, false,
        genRes, .error e, trajRes⟩ u st = safeFallbackResponse ∧
      safeFallbackResponse.patient_reply = "safe-fallback" ∧
      safeFallbackResponse.risk_status = "none") ∧
    (∃ g, guard (.vDict r₀) P (normalize u st P).risk_flags = .ok g ∧
      g.risk_status = "acute") ∧
    ((runTurn ⟨.ok true, .ok P, .ok cands, .ok CT, false, llmRes, false,
        genRes, .ok (), .error e'⟩ u st).risk_status = "acute" ∧
      runTurn ⟨.ok true, .ok P, .ok cands, .ok CT, false, llmRes, false,
        genRes, .ok (), .error e'⟩ u st ≠ safeFallbackResponse) := by
  obtain ⟨sd, hr₀⟩ := reasonStub_ok_shape hreason
  have hflags : (normalize u st P).risk_flags = ["suicide_ideation"] := by
    rcases risk_flags_cases u st P with h | h
    · exact absurd h hrisk
    · exact h
  have hguard : guard (.vDict r₀) P (normalize u st P).risk_flags =
      .ok ⟨.vDict (setKey (setKey r₀ "content_plan"
          (.vList [.vStr riskSafetyMessage none])) "style_directives"
          (.vDict (setKey sd "tempo" (.vStr "calm" none)))), "acute"⟩ := by
    rw [hflags, hr₀]
    rfl
  have hbody1 : runTurnBody ⟨.ok true, .ok P, .ok cands, .ok CT, false,
      llmRes, false, genRes, .error e, trajRes⟩ u st = .error e := by
    unfold runTurnBody
    dsimp only
    rw [hreason]
    dsimp only [Except.map]
    rw [hflags, hr₀]
    rfl
  have hbody2 : ∃ resp, runTurnBody ⟨.ok true, .ok P, .ok cands, .ok CT,
      false, llmRes, false, genRes, .ok (), .error e'⟩ u st = .ok resp ∧
      resp.risk_status = "acute" := by
    unfold runTurnBody
    dsimp only
    rw [hreason]
    dsimp only [Except.map]
    rw [hflags, hr₀]
    exact ⟨_, rfl, rfl⟩
  obtain ⟨resp, hb2, hrs⟩ := hbody2
  have hred : runTurn ⟨.ok true, .ok P, .ok cands, .ok CT, false, llmRes,
      false, genRes, .ok (), .error e'⟩ u st = resp := by
    unfold runTurn
    rw [hb2]
  refine ⟨⟨?_, rfl, rfl⟩, ⟨_, hguard, rfl⟩, ?_, ?_⟩
  · unfold runTurn
    rw [hbody1]
  · rw [hred]
    exact hrs
  · rw [hred]
    intro hcontra
    rw [hcontra] at hrs
    exact absurd hrs (by decide)

/-- Witness for C10 at a concrete risk utterance and empty candidate set. -/
theorem run_turn_telemetry_failure_masks_risk_witness :
    ∃ r₀, reasonStub (.vDict []) (.vDict []) [] (.vDict []) = .ok r₀ ∧
    ((normalize "суицид" (.vDict []) (.vDict [])).risk_flags ≠ [] ∧
      (runTurn ⟨.ok true, .ok (.vDict []), .ok [], .ok (.vDict []), false,
          .ok (.vDict []), false, .ok "", .error "db err", .ok ()⟩
          "суицид" (.vDict []) = safeFallbackResponse ∧
        safeFallbackResponse.patient_reply = "safe-fallback" ∧
        safeFallbackResponse.risk_status = "none") ∧
      (∃ g, guard (.vDict r₀) (.vDict [])
          (normalize "суицид" (.vDict []) (.vDict [])).risk_flags = .ok g ∧
        g.risk_status = "acute") ∧
      ((runTurn ⟨.ok true, .ok (.vDict []), .ok [], .ok (.vDict []), false,
          .ok (.vDict []), false, .ok "", .ok (), .error "traj err"⟩
          "суицид" (.vDict [])).risk_status = "acute" ∧
        runTurn ⟨.ok true, .ok (.vDict []), .ok [], .ok (.vDict []), false,
          .ok (.vDict []), false, .ok "", .ok (), .error "traj err"⟩
          "суицид" (.vDict []) ≠ safeFallbackResponse)) :=
  ⟨_, rfl,
    (by decide : (normalize "суицид" (.vDict []) (.vDict [])).risk_flags ≠ []),
    run_turn_telemetry_failure_masks_risk "суицид" (.vDict []) (.vDict [])
      (.vDict []) [] _ "db err" "traj err" (.ok (.vDict [])) (.ok "")
      (.ok ()) rfl
      (by decide : (normalize "суицид" (.vDict []) (.vDict [])).risk_flags ≠ [])⟩

/-! ## Tolerant JSON extraction — `app/llm/json_parse.py`

`extract_json_blocks` and `parse_llm_json`.  The strict `json.loads` is
implemented below (`jsonLoads`) as a recursive-descent parser of RFC-8259
JSON (objects, arrays, strings with escapes, numbers, literals; the whole
input must parse, surrounding whitespace allowed).  The optional `json5`
module (imported with a `try`/`except ImportError` in the source) is a
parameter: `none` models the module being absent.  The two `re.findall`
patterns and the three `re.sub` cleanups are implemented with Python
regex semantics (greedy `\s*` with backtracking, lazy `(.*?)`,
non-overlapping left-to-right scan, MULTILINE `$`). -/

inductive Jv where
  | jNull
  | jBool (b : Bool)
  | jNum (q : ℚ)
  | jStr (s : String)
  | jArr (xs : List Jv)
  | jObj (m : List (String × Jv))

/-- JSON whitespace (RFC 8259: space, tab, LF, CR). -/
def jsonWs (c : Char) : Bool :=
  c == ' ' || c == '\t' || c == '\n' || c == '\r'

def hexVal (c : Char) : Option ℕ :=
  if '0' ≤ c ∧ c ≤ '9' then some (c.toNat - '0'.toNat)
  else if 'a' ≤ c ∧ c ≤ 'f' then some (c.toNat - 'a'.toNat + 10)
  else if 'A' ≤ c ∧ c ≤ 'F' then some (c.toNat - 'A'.toNat + 10)
  else none

/-- JSON string body after the opening quote: characters until the closing
quote, with the standard escapes (`\uXXXX` taken as the code point; raw
control characters are rejected, as strict `json.loads` does). -/
def parseJStr : ℕ → List Char → Option (List Char × List Char)
  | 0, _ => none
  | _, [] => none
  | fuel + 1, c :: cs =>
      if c == '"' then some ([], cs)
      else if c == '\\' then
        match cs with
        | [] => none
        | e :: cs2 =>
            if e == '"' then
              (parseJStr fuel cs2).map (fun pr => ('"' :: pr.1, pr.2))
            else if e == '\\' then
              (parseJStr fuel cs2).map (fun pr => ('\\' :: pr.1, pr.2))
            else if e == '/' then
              (parseJStr fuel cs2).map (fun pr => ('/' :: pr.1, pr.2))
            else if e == 'b' then
              (parseJStr fuel cs2).map (fun pr => ('\x08' :: pr.1, pr.2))
            else if e == 'f' then
              (parseJStr fuel cs2).map (fun pr => ('\x0c' :: pr.1, pr.2))
            else if e == 'n' then
              (parseJStr fuel cs2).map (fun pr => ('\n' :: pr.1, pr.2))
            else if e == 'r' then
              (parseJStr fuel cs2).map (fun pr => ('\r' :: pr.1, pr.2))
            else if e == 't' then
              (parseJStr fuel cs2).map (fun pr => ('\t' :: pr.1, pr.2))
            else if e == 'u' then
              match cs2 with
              | h1 :: h2 :: h3 :: h4 :: cs3 =>
                  match hexVal h1, hexVal h2, hexVal h3, hexVal h4 with
                  | some a, some b, some c', some d =>
                      (parseJStr fuel cs3).map (fun pr =>
                        (Char.ofNat (((a * 16 + b) * 16 + c') * 16 + d)
                          :: pr.1, pr.2))
                  | _, _, _, _ => none
              | _ => none
            else none
      else if c.toNat < 32 then none
      else (parseJStr fuel cs).map (fun pr => (c :: pr.1, pr.2))

def digitsToNat (ds : List Char) : ℕ :=
  ds.foldl (fun acc d => acc * 10 + (d.toNat - '0'.toNat)) 0

/-- JSON number: `-?(0|[1-9][0-9]*)(\.[0-9]+)?([eE][+-]?[0-9]+)?`,
evaluated exactly as a rational. -/
def parseJNum (cs : List Char) : Option (Jv × List Char) :=
  let sgnRest : ℤ × List Char :=
    match cs with
    | '-' :: rest => (-1, rest)
    | _ => (1, cs)
  let intDigits := sgnRest.2.takeWhile Char.isDigit
  if intDigits.isEmpty then none
  else if intDigits.length > 1 ∧ intDigits.headD '0' = '0' then none
  else
    let afterInt := sgnRest.2.drop intDigits.length
    let fracPair : List Char × List Char :=
      match afterInt with
      | '.' :: rest =>
          let fd := rest.takeWhile Char.isDigit
          (fd, rest.drop fd.length)
      | _ => ([], afterInt)
    match afterInt, fracPair.1 with
    | '.' :: _, [] => none
    | _, _ =>
        let expPair : Option ℤ × List Char :=
          match fracPair.2 with
          | e :: rest =>
              if e == 'e' || e == 'E' then
                let sgnExp : ℤ × List Char :=
                  match rest with
                  | '-' :: r2 => (-1, r2)
                  | '+' :: r2 => (1, r2)
                  | _ => (1, rest)
                let ed := sgnExp.2.takeWhile Char.isDigit
                if ed.isEmpty then (none, fracPair.2)
                else (some (sgnExp.1 * digitsToNat ed),
                  sgnExp.2.drop ed.length)
              else (none, fracPair.2)
          | [] => (none, [])
        let mantissa : ℤ := sgnRest.1 *
          (digitsToNat intDigits * 10 ^ fracPair.1.length +
            digitsToNat fracPair.1)
        let ea : ℤ := (expPair.1.getD 0) - fracPair.1.length
        let q : ℚ :=
          if 0 ≤ ea then ((mantissa * 10 ^ ea.toNat : ℤ) : ℚ)
          else mkRat mantissa (10 ^ (-ea).toNat)
        some (.jNum q, expPair.2)

mutual

/-- Recursive-descent JSON value parser (fuel-indexed; callers supply fuel
exceeding the input length, which bounds the recursion depth). -/
def parseJv : ℕ → List Char → Option (Jv × List Char)
  | 0, _ => none
  | fuel + 1, cs0 =>
      let cs := cs0.dropWhile jsonWs
      match cs with
      | [] => none
      | 'n' :: rest =>
          if rest.take 3 = ['u', 'l', 'l'] then some (.jNull, rest.drop 3)
          else none
      | 't' :: rest =>
          if rest.take 3 = ['r', 'u', 'e'] then
            some (.jBool true, rest.drop 3)
          else none
      | 'f' :: rest =>
          if rest.take 4 = ['a', 'l', 's', 'e'] then
            some (.jBool false, rest.drop 4)
          else none
      | '"' :: rest =>
          (parseJStr fuel rest).map
            (fun pr => (.jStr (String.mk pr.1), pr.2))
      | '[' :: rest =>
          (match (rest.dropWhile jsonWs) with
           | ']' :: r2 => some (.jArr [], r2)
           | _ => parseJArr fuel rest [])
      | '{' :: rest =>
          (match (rest.dropWhile jsonWs) with
           | '}' :: r2 => some (.jObj [], r2)
           | _ => parseJObj fuel rest [])
      | c :: _ =>
          if c == '-' || c.isDigit then parseJNum cs else none

/-- Array elements after `[` (the empty case is handled by the caller). -/
def parseJArr : ℕ → List Char → List Jv → Option (Jv × List Char)
  | 0, _, _ => none
  | fuel + 1, cs, acc =>
      match parseJv fuel cs with
      | none => none
      | some (v, rest) =>
          match rest.dropWhile jsonWs with
          | ',' :: r2 => parseJArr fuel r2 (acc ++ [v])
          | ']' :: r2 => some (.jArr (acc ++ [v]), r2)
          | _ => none

/-- Object members after `{` (the empty case is handled by the caller). -/
def parseJObj : ℕ → List Char → List (String × Jv) →
    Option (Jv × List Char)
  | 0, _, _ => none
  | fuel + 1, cs, acc =>
      match cs.dropWhile jsonWs with
      | '"' :: rest =>
          match parseJStr fuel rest with
          | none => none
          | some (key, rest2) =>
              match rest2.dropWhile jsonWs with
              | ':' :: rest3 =>
                  match parseJv fuel rest3 with
                  | none => none
                  | some (v, rest4) =>
                      match rest4.dropWhile jsonWs with
                      | ',' :: r5 =>
                          parseJObj fuel r5 (acc ++ [(String.mk key, v)])
                      | '}' :: r5 =>
                          some (.jObj (acc ++ [(String.mk key, v)]), r5)
                      | _ => none
              | _ => none
      | _ => none

end

/-- `json.loads`: the whole string (modulo surrounding whitespace) must be
one JSON value. -/
def jsonLoads (s : String) : Option Jv :=
  match parseJv (s.toList.length + 1) s.toList with
  | some (v, rest) => if (rest.dropWhile jsonWs).isEmpty then some v else none
  | none => none

/-- First occurrence of `pat` in a character list: the part before it and
the part after it. -/
def splitFirst (pat : List Char) : List Char → Option (List Char × List Char)
  | [] => if pat.isEmpty then some ([], []) else none
  | c :: cs =>
      if seqIsPrefix pat (c :: cs) then some ([], (c :: cs).drop pat.length)
      else (splitFirst pat cs).map (fun pr => (c :: pr.1, pr.2))

/-- Case-insensitive literal match (the pattern is lower case; `IGNORECASE`
only affects ASCII letters here). -/
def seqIsPrefixCI : List Char → List Char → Bool
  | [], _ => true
  | _ :: _, [] => false
  | p :: ps, c :: cs => Char.toLower c == p && seqIsPrefixCI ps cs

/-- Indices of newlines in the whitespace run, in decreasing order: the
greedy `\s*` of `` ```json\s*\n `` backtracks from the longest prefix. -/
def newlineIdxDesc (run : List Char) : List ℕ :=
  ((List.range run.length).filter
    (fun k => run.getD k ' ' == '\n')).reverse

/-- Try each backtracking position: after the chosen newline, the lazy
`(.*?)\n``` ` needs a first occurrence of `"\n```"`. -/
def tryNewlinePositions (after : List Char) :
    List ℕ → Option (List Char × List Char)
  | [] => none
  | k :: ks =>
      match splitFirst ('\n' :: '`' :: '`' :: '`' :: []) (after.drop (k + 1))
        with
      | some pr => some pr
      | none => tryNewlinePositions after ks

/-- A match of `` ```json\s*\n(.*?)\n``` `` (DOTALL, IGNORECASE) starting at
the head of `cs`: the capture and the rest after the whole match. -/
def jsonFenceAt (cs : List Char) : Option (List Char × List Char) :=
  if seqIsPrefixCI "```json".toList cs then
    let after := cs.drop 7
    tryNewlinePositions after (newlineIdxDesc (after.takeWhile isPyWs))
  else none

/-- A match of `` ```[^j\n]*\n(.*?)\n``` `` (DOTALL) starting at the head of
`cs`.  `[^j\n]*` has a unique viable length (all its characters are
non-newline, so only the maximal run can be followed by `\n`). -/
def genFenceAt (cs : List Char) : Option (List Char × List Char) :=
  if seqIsPrefix "```".toList cs then
    let after := cs.drop 3
    let run := after.takeWhile (fun c => c != 'j' && c != '\n')
    match after.drop run.length with
    | '\n' :: body => splitFirst ('\n' :: '`' :: '`' :: '`' :: []) body
    | _ => none
  else none

/-- `re.findall` scan: non-overlapping, left to right, resuming after each
match (fuel bounds the scan length). -/
def findAllFences (matchAt : List Char → Option (List Char × List Char)) :
    ℕ → List Char → List (List Char)
  | 0, _ => []
  | _, [] => []
  | fuel + 1, c :: cs =>
      match matchAt (c :: cs) with
      | some (cap, rest) => cap :: findAllFences matchAt fuel rest
      | none => findAllFences matchAt fuel cs

/-- The bracket-counting scan of one balanced block: after an opening `{`,
consume until the matching `}`; `none` when the input ends unbalanced. -/
def braceTake : List Char → ℕ → List Char →
    Option (List Char × List Char)
  | [], _, _ => none
  | c :: cs, depth, acc =>
      if c == '{' then braceTake cs (depth + 1) (c :: acc)
      else if c == '}' then
        if depth == 1 then some ((c :: acc).reverse, cs)
        else braceTake cs (depth - 1) (c :: acc)
      else braceTake cs depth (c :: acc)

/-- `find_balanced_braces`: collect balanced `{...}` blocks left to right;
an unbalanced `{` runs the index past the end, ending the scan. -/
def braceScan : ℕ → List Char → List (List Char)
  | 0, _ => []
  | _, [] => []
  | fuel + 1, c :: cs =>
      if c == '{' then
        match braceTake cs 1 [c] with
        | some (block, rest) => block :: braceScan fuel rest
        | none => []
      else braceScan fuel cs

/-- `extract_json_blocks`: json-tagged fences, then any other fences, then
raw balanced-brace blocks. -/
def extractJsonBlocks (text : String) : List String :=
  ((findAllFences jsonFenceAt text.toList.length text.toList) ++
   (findAllFences genFenceAt text.toList.length text.toList) ++
   (braceScan text.toList.length text.toList)).map String.mk

/-- `re.sub(r",\s*X", "X")` for `X` ∈ `\x7d`, `]`: non-overlapping
left-to-right replacement, resuming after each match. -/
def subCommaClose (close : Char) : ℕ → List Char → List Char
  | 0, cs => cs
  | _, [] => []
  | fuel + 1, c :: cs =>
      if c == ',' then
        match cs.drop (cs.takeWhile isPyWs).length with
        | d :: rest2 =>
            if d == close then close :: subCommaClose close fuel rest2
            else c :: subCommaClose close fuel cs
        | [] => c :: subCommaClose close fuel cs
      else c :: subCommaClose close fuel cs

/-- `re.sub(r"//.*?$", "", flags=MULTILINE)`: drop from each `//` to the end
of its line (the newline itself stays). -/
def subLineComments : ℕ → List Char → List Char
  | 0, cs => cs
  | _, [] => []
  | fuel + 1, c :: cs =>
      if c == '/' then
        match cs with
        | '/' :: rest =>
            subLineComments fuel (rest.dropWhile (fun ch => ch != '\n'))
        | _ => c :: subLineComments fuel cs
      else c :: subLineComments fuel cs

/-- The final-attempt cleanup of `parse_llm_json`: strip trailing commas
before `\x7d` and `]`, then strip `//` comments. -/
def cleanupCandidate (s : String) : String :=
  let c1 := subCommaClose '}' s.toList.length s.toList
  let c2 := subCommaClose ']' c1.length c1
  String.mk (subLineComments c2.length c2)

/-- One strategy attempt on one candidate: Python strips it, skips it when
empty, and accepts only a parsed dict. -/
def parseAccept (parse : String → Option Jv) (cand : String) : Option Jv :=
  if pyStrip cand = "" then none
  else
    match parse (pyStrip cand) with
    | some (.jObj m) => some (.jObj m)
    | _ => none

def firstSome {α β : Type} (f : α → Option β) : List α → Option β
  | [] => none
  | a :: rest =>
      match f a with
      | some b => some b
      | none => firstSome f rest

/-- The dict filter of the final cleanup attempt (no empty-skip there). -/
def jsonObjOf : Option Jv → Option Jv
  | some (.jObj m) => some (.jObj m)
  | _ => none

/-- `parse_llm_json(text)`: strict `json.loads` over each candidate, then
`json5.loads` over each candidate when the module is available, then one
regex-cleanup attempt on the first candidate, else `ValueError`. -/
def parseLlmJson (json5 : Option (String → Option Jv)) (text : String) :
    Except String Jv :=
  match extractJsonBlocks text with
  | [] => .error "No JSON candidates found in text"
  | c0 :: cs =>
      match firstSome (parseAccept jsonLoads) (c0 :: cs) with
      | some v => .ok v
      | none =>
          match (match json5 with
            | some p5 => firstSome (parseAccept p5) (c0 :: cs)
            | none => none) with
          | some v => .ok v
          | none =>
              match jsonObjOf (jsonLoads (cleanupCandidate (pyStrip c0)))
                with
              | some v => .ok v
              | none => .error "Failed to parse JSON"

theorem firstSome_eq_none_iff {α β : Type} (f : α → Option β)
    (l : List α) : firstSome f l = none ↔ ∀ a ∈ l, f a = none := by
  induction l with
  | nil => simp [firstSome]
  | cons a rest ih =>
      constructor
      · intro h b hb
        unfold firstSome at h
        rcases hf : f a with _ | v
        · rw [hf] at h
          rcases List.mem_cons.mp hb with hb | hb
          · subst hb
            exact hf
          · exact ih.mp h b hb
        · rw [hf] at h
          exact Option.noConfusion h
      · intro h
        unfold firstSome
        rw [h a (List.mem_cons_self a rest)]
        exact ih.mpr (fun b hb => h b (List.mem_cons_of_mem a hb))

/-- C9 counterexample.  On the text `{"a":} {,}` the code raises although
not every candidate fails under every strategy: the second raw-brace
candidate `{,}` becomes `{}` under the регex-cleanup strategy and parses to
a dict — but the cleanup pass is only ever applied to the first candidate,
so `parse_llm_json` raises anyway. -/
theorem parse_llm_json_raise_counterexample :
    parseLlmJson none "\x7b\"a\":\x7d \x7b,\x7d" =
      .error "Failed to parse JSON" ∧
    "\x7b,\x7d" ∈ extractJsonBlocks "\x7b\"a\":\x7d \x7b,\x7d" ∧
    jsonObjOf (jsonLoads (cleanupCandidate (pyStrip "\x7b,\x7d"))) =
      some (.jObj []) := by
  refine ⟨rfl, ?_, rfl⟩
  have h : extractJsonBlocks "\x7b\"a\":\x7d \x7b,\x7d" =
      ["\x7b\"a\":\x7d", "\x7b,\x7d"] := rfl
  rw [h]
  exact List.mem_cons_of_mem _ (List.mem_cons_self _ _)

/-- C9 amended.  `parse_llm_json` succeeds on a JSON object in ```` ```json
```` fences, in plain fences, and as raw braced text with nested braces; it
raises exactly when no candidate substring is found (in particular on text
with no braces at all), or every candidate fails the strict strategy, every
candidate fails the JSON5 strategy when that module is available, and the
FIRST candidate (only) fails the regex-cleanup strategy. -/
theorem parse_llm_json_spec :
    (∀ j5, parseLlmJson j5
      "Here is the result:\n```json\n\x7b\"content_plan\": [\"test\"]\x7d\n```\nDone."
      = .ok (.jObj [("content_plan", .jArr [.jStr "test"])])) ∧
    (∀ j5, parseLlmJson j5 "```\n\x7b\"a\": 1\x7d\n```" =
      .ok (.jObj [("a", .jNum 1)])) ∧
    (∀ j5, parseLlmJson j5 "Plan: \x7b\"outer\": \x7b\"inner\": 2\x7d\x7d rest"
      = .ok (.jObj [("outer", .jObj [("inner", .jNum 2)])])) ∧
    (∀ j5, extractJsonBlocks "No JSON here at all, just plain text." = [] ∧
      parseLlmJson j5 "No JSON here at all, just plain text." =
        .error "No JSON candidates found in text") ∧
    (∀ j5 text, (∃ e, parseLlmJson j5 text = .error e) ↔
      (extractJsonBlocks text = [] ∨
        ((∀ c ∈ extractJsonBlocks text, parseAccept jsonLoads c = none) ∧
         (∀ p5, j5 = some p5 →
           ∀ c ∈ extractJsonBlocks text, parseAccept p5 c = none) ∧
         ∀ c0 cs, extractJsonBlocks text = c0 :: cs →
           jsonObjOf (jsonLoads (cleanupCandidate (pyStrip c0))) = none))) := by
  refine ⟨fun j5 => rfl, fun j5 => rfl, fun j5 => rfl, fun j5 => ⟨rfl, rfl⟩,
    fun j5 text => ?_⟩
  constructor
  · rintro ⟨e, he⟩
    unfold parseLlmJson at he
    rcases hx : extractJsonBlocks text with _ | ⟨c0, cs⟩
    · exact Or.inl rfl
    · rw [hx] at he
      dsimp only at he
      rcases h1 : firstSome (parseAccept jsonLoads) (c0 :: cs) with _ | v
      · rw [h1] at he
        right
        refine ⟨(firstSome_eq_none_iff _ _).mp h1, ?_, ?_⟩
        · intro p5 hp5 c hc
          subst hp5
          dsimp only at he
          rcases h2 : firstSome (parseAccept p5) (c0 :: cs) with _ | v
          · exact (firstSome_eq_none_iff _ _).mp h2 c hc
          · rw [h2] at he
            exact Except.noConfusion he
        · intro c0' cs' heq
          injection heq with h3 h4
          subst h3
          rcases h5 : (match j5 with
            | some p5 => firstSome (parseAccept p5) (c0 :: cs)
            | none => none) with _ | v
          · rw [h5] at he
            rcases h6 : jsonObjOf (jsonLoads (cleanupCandidate (pyStrip c0)))
              with _ | v
            · rfl
            · rw [h6] at he
              exact Except.noConfusion he
          · rw [h5] at he
            exact Except.noConfusion he
      · rw [h1] at he
        exact Except.noConfusion he
  · intro hcases
    unfold parseLlmJson
    rcases hx : extractJsonBlocks text with _ | ⟨c0, cs⟩
    · exact ⟨_, rfl⟩
    · dsimp only
      rcases hcases with hemp | ⟨hstrict, h5all, hclean⟩
      · rw [hx] at hemp
        exact List.noConfusion hemp
      · rw [hx] at hstrict h5all hclean
        have h1 : firstSome (parseAccept jsonLoads) (c0 :: cs) = none :=
          (firstSome_eq_none_iff _ _).mpr hstrict
        rw [h1]
        have h2 : (match j5 with
            | some p5 => firstSome (parseAccept p5) (c0 :: cs)
            | none => none) = none := by
          rcases j5 with _ | p5
          · rfl
          · exact (firstSome_eq_none_iff _ _).mpr (h5all p5 rfl)
        rw [h2]
        rw [hclean c0 cs rfl]
        exact ⟨_, rfl⟩

/-- Witness for C9 (amended): the characterization applied at the no-braces
text, and a concrete plain-fence success. -/
theorem parse_llm_json_spec_witness :
    (∃ e, parseLlmJson none "No JSON here at all, just plain text." =
      .error e) ∧
    parseLlmJson none "```\n\x7b\"a\": 1\x7d\n```" =
      .ok (.jObj [("a", .jNum 1)]) :=
  ⟨(parse_llm_json_spec.2.2.2.2 none
      "No JSON here at all, just plain text.").mpr (Or.inl rfl),
    parse_llm_json_spec.2.1 none⟩

end Psy2
